import Mathlib

/-!
Formal model of the bin_prot serialization codec of `src/lib.rs`.

Byte streams are modelled as `List Nat`, every element below 256.
A writer is a function `α → List Nat`; a reader is a function
`List Nat → Except Error (α × List Nat)` returning the decoded value
together with the unconsumed remainder of the stream, so that "consumes
exactly the bytes of one encoding" is expressible.

The crate modules `int`, `error` and `traits` are declared by `lib.rs`
but their sources are not part of the examined surface; the
corresponding definitions below are modelled from the specification
(each such definition carries `Modelled from the spec:` in its doc
comment).  Everything else is translated directly from `src/lib.rs`.
-/

namespace BinProt

/-- `leBytes k n` renders `n` as `k` little-endian bytes (low byte
first), truncating to `8*k` bits, as the fixed-width writers of the
`byteorder` crate do. -/
def leBytes : Nat → Nat → List Nat
  | 0, _ => []
  | k + 1, n => n % 256 :: leBytes k (n / 256)

/-- Value of a little-endian byte list (zero-extension to a natural). -/
def leVal : List Nat → Nat
  | [] => 0
  | b :: bs => b + 256 * leVal bs

/-- `toSigned k v` reinterprets the `8*k`-bit value `v` as a two's
complement signed integer. -/
def toSigned (k : Nat) (v : Nat) : Int :=
  if v < 2 ^ (8 * k - 1) then (v : Int) else (v : Int) - 2 ^ (8 * k)

/-- `takeBytes k s` splits off the first `k` bytes of `s`, failing when
the stream is shorter (the error of an exact read on a short stream). -/
def takeBytes : Nat → List Nat → Option (List Nat × List Nat)
  | 0, s => some ([], s)
  | _ + 1, [] => none
  | k + 1, b :: s =>
    match takeBytes k s with
    | none => none
    | some (bs, r) => some (b :: bs, r)

/-- Modelled from the spec: the error taxonomy of the `error` module
(declared by `lib.rs` but not under the examined sources): a wrapped
stream failure, invalid UTF-8 in a decoded string, a malformed or
unrecognized integer tag byte, an invalid discriminant byte for unit,
boolean or option (each carrying the offending byte), and a duplicate
map key. -/
inductive Error where
  | ioError : Error
  | utf8Error : Error
  | malformedIntegerTag : Error
  | unexpectedValueForUnit : Nat → Error
  | unexpectedValueForBool : Nat → Error
  | unexpectedValueForOption : Nat → Error
  | sameKeyAppearsTwiceInMap : Error
deriving DecidableEq

/-- A reader consumes an initial segment of the stream and returns the
decoded value with the rest of the stream, or a decode error. -/
abbrev Reader (α : Type) : Type := List Nat → Except Error (α × List Nat)

/-- Modelled from the spec: `int::write_nat0`, the canonical unsigned
variable-width encoding — a single byte for values up to `0x7F`, tag
`0xFE` plus 2 little-endian bytes up to `0xFFFF`, tag `0xFD` plus 4
bytes up to `0xFFFFFFFF`, tag `0xFC` plus 8 bytes above that; the
narrowest sufficient width is always selected. -/
def write_nat0 (n : Nat) : List Nat :=
  if n ≤ 0x7F then [n]
  else if n ≤ 0xFFFF then 0xFE :: leBytes 2 n
  else if n ≤ 0xFFFFFFFF then 0xFD :: leBytes 4 n
  else 0xFC :: leBytes 8 n

/-- Modelled from the spec: `int::read_nat0`.  Read one byte; each of
the four tag bytes selects a fixed-width little-endian field which is
zero-extended; otherwise the byte itself, which must be at most `0x7F`,
is the value; any other byte is a fatal malformed-input error. -/
def read_nat0 : Reader Nat := fun s =>
  match s with
  | [] => .error .ioError
  | c :: s =>
    if c = 0xFC then
      match takeBytes 8 s with
      | none => .error .ioError
      | some (bs, r) => .ok (leVal bs, r)
    else if c = 0xFD then
      match takeBytes 4 s with
      | none => .error .ioError
      | some (bs, r) => .ok (leVal bs, r)
    else if c = 0xFE then
      match takeBytes 2 s with
      | none => .error .ioError
      | some (bs, r) => .ok (leVal bs, r)
    else if c = 0xFF then
      match takeBytes 1 s with
      | none => .error .ioError
      | some (bs, r) => .ok (leVal bs, r)
    else if c ≤ 0x7F then .ok (c, s)
    else .error .malformedIntegerTag

/-- Modelled from the spec: `int::write_i64`, the signed variable-width
encoding over the same tag space, with the extra 1-byte tagged form
`0xFF` for small negative values. -/
def write_i64 (i : Int) : List Nat :=
  if 0 ≤ i ∧ i ≤ 0x7F then [i.toNat]
  else if -0x80 ≤ i ∧ i ≤ 0x7F then 0xFF :: leBytes 1 (i % 2 ^ 8).toNat
  else if -0x8000 ≤ i ∧ i ≤ 0x7FFF then 0xFE :: leBytes 2 (i % 2 ^ 16).toNat
  else if -0x80000000 ≤ i ∧ i ≤ 0x7FFFFFFF then 0xFD :: leBytes 4 (i % 2 ^ 32).toNat
  else 0xFC :: leBytes 8 (i % 2 ^ 64).toNat

/-- Modelled from the spec: `int::read_signed`.  Read one byte; each of
the four tag bytes selects a fixed-width little-endian field which is
sign-extended to 64 bits; otherwise the byte itself, which must be at
most `0x7F`, is the value; any other byte is a fatal malformed-input
error. -/
def read_signed : Reader Int := fun s =>
  match s with
  | [] => .error .ioError
  | c :: s =>
    if c = 0xFC then
      match takeBytes 8 s with
      | none => .error .ioError
      | some (bs, r) => .ok (toSigned 8 (leVal bs), r)
    else if c = 0xFD then
      match takeBytes 4 s with
      | none => .error .ioError
      | some (bs, r) => .ok (toSigned 4 (leVal bs), r)
    else if c = 0xFE then
      match takeBytes 2 s with
      | none => .error .ioError
      | some (bs, r) => .ok (toSigned 2 (leVal bs), r)
    else if c = 0xFF then
      match takeBytes 1 s with
      | none => .error .ioError
      | some (bs, r) => .ok (toSigned 1 (leVal bs), r)
    else if c ≤ 0x7F then .ok ((c : Int), s)
    else .error .malformedIntegerTag

theorem leBytes_length (k : Nat) : ∀ n, (leBytes k n).length = k := by
  induction k with
  | zero => intro n; rfl
  | succ k ih => intro n; simp [leBytes, ih]

theorem takeBytes_append (xs r : List Nat) : takeBytes xs.length (xs ++ r) = some (xs, r) := by
  induction xs with
  | nil => rfl
  | cons b bs ih => simp [takeBytes, ih]

theorem leVal_leBytes (k : Nat) : ∀ n, n < 2 ^ (8 * k) → leVal (leBytes k n) = n := by
  induction k with
  | zero => intro n h; simp [leBytes, leVal]; omega
  | succ k ih =>
    intro n h
    have hp : (2 : Nat) ^ (8 * (k + 1)) = 2 ^ (8 * k) * 256 := by
      rw [show 8 * (k + 1) = 8 * k + 8 by ring, pow_add]
      norm_num
    have h2 : n / 256 < 2 ^ (8 * k) := by
      rw [hp] at h
      omega
    simp [leBytes, leVal, ih (n / 256) h2]
    omega

/-- `impl BinProtWrite for ()` (src/lib.rs 51-55): the single byte 0. -/
def writeUnit : Unit → List Nat := fun _ => [0]

/-- `impl BinProtRead for ()` (src/lib.rs 202-214). -/
def readUnit : Reader Unit := fun s =>
  match s with
  | [] => .error .ioError
  | c :: s =>
    if c = 0 then .ok ((), s) else .error (.unexpectedValueForUnit c)

/-- `impl BinProtWrite for bool` (src/lib.rs 57-62). -/
def writeBool (b : Bool) : List Nat := [if b then 1 else 0]

/-- `impl BinProtRead for bool` (src/lib.rs 216-230). -/
def readBool : Reader Bool := fun s =>
  match s with
  | [] => .error .ioError
  | c :: s =>
    if c = 0 then .ok (false, s)
    else if c = 1 then .ok (true, s)
    else .error (.unexpectedValueForBool c)

/-- `impl BinProtWrite for f64` (src/lib.rs 45-49): the raw 8
little-endian bytes.  A float is modelled by its IEEE-754 bit pattern,
a natural below `2 ^ 64`, which the codec treats opaquely. -/
def writeF64 (bits : Nat) : List Nat := leBytes 8 bits

/-- `impl BinProtRead for f64` (src/lib.rs 192-200). -/
def readF64 : Reader Nat := fun s =>
  match takeBytes 8 s with
  | none => .error .ioError
  | some (bs, r) => .ok (leVal bs, r)

/-- `impl BinProtWrite for Option<T>` (src/lib.rs 64-74): byte 0 for
`None`, byte 1 followed by the inner encoding for `Some`. -/
def writeOption (wr : α → List Nat) : Option α → List Nat
  | Option.none => [0]
  | Option.some v => 1 :: wr v

/-- `impl BinProtRead for Option<T>` (src/lib.rs 232-247). -/
def readOption (rd : Reader α) : Reader (Option α) := fun s =>
  match s with
  | [] => .error .ioError
  | c :: s =>
    if c = 0 then .ok (Option.none, s)
    else if c = 1 then
      match rd s with
      | .error e => .error e
      | .ok (v, s1) => .ok (Option.some v, s1)
    else .error (.unexpectedValueForOption c)

/-- `impl BinProtWrite for Vec<T>` (src/lib.rs 76-84): nat0 element
count, then each element's encoding in order. -/
def writeVec (wr : α → List Nat) (v : List α) : List Nat :=
  write_nat0 v.length ++ (v.map wr).flatten

/-- `impl BinProtWrite for &[T]` (src/lib.rs 86-94), an impl separate
from but textually identical to the `Vec<T>` one. -/
def writeSlice (wr : α → List Nat) (v : List α) : List Nat :=
  write_nat0 v.length ++ (v.map wr).flatten

/-- The element loop of `impl BinProtRead for Vec<T>`: read `n`
elements in order, aborting on the first element failure. -/
def readVecAux (rd : Reader α) : Nat → Reader (List α)
  | 0 => fun s => .ok ([], s)
  | n + 1 => fun s =>
    match rd s with
    | .error e => .error e
    | .ok (x, s1) =>
      match readVecAux rd n s1 with
      | .error e => .error e
      | .ok (xs, s2) => .ok (x :: xs, s2)

/-- `impl BinProtRead for Vec<T>` (src/lib.rs 249-262). -/
def readVec (rd : Reader α) : Reader (List α) := fun s =>
  match read_nat0 s with
  | .error e => .error e
  | .ok (len, s1) => readVecAux rd len s1

/-- `impl BinProtWrite for String` (src/lib.rs 96-102): nat0 byte
length, then the raw bytes.  A Rust string is modelled as its byte
content, a `List Nat` whose validity invariant is `validUtf8`. -/
def writeString (bs : List Nat) : List Nat :=
  write_nat0 bs.length ++ bs

/-- `impl BinProtWrite for &str` (src/lib.rs 104-110), an impl separate
from but textually identical to the `String` one. -/
def writeStr (bs : List Nat) : List Nat :=
  write_nat0 bs.length ++ bs

/-- Whether a byte is a UTF-8 continuation byte (`0x80`-`0xBF`). -/
def isCont (b : Nat) : Bool := decide (0x80 ≤ b ∧ b ≤ 0xBF)

/-- UTF-8 validity of a byte sequence, as checked by the standard
library's `std::str::from_utf8` (an external collaborator of the
crate): the byte-level grammar of RFC 3629, rejecting overlong forms,
surrogates and code points above `U+10FFFF`. -/
def validUtf8 : List Nat → Bool
  | [] => true
  | b0 :: rest =>
    if b0 ≤ 0x7F then validUtf8 rest
    else if 0xC2 ≤ b0 ∧ b0 ≤ 0xDF then
      match rest with
      | b1 :: rest1 => isCont b1 && validUtf8 rest1
      | [] => false
    else if b0 = 0xE0 then
      match rest with
      | b1 :: b2 :: rest2 =>
        decide (0xA0 ≤ b1 ∧ b1 ≤ 0xBF) && isCont b2 && validUtf8 rest2
      | _ => false
    else if (0xE1 ≤ b0 ∧ b0 ≤ 0xEC) ∨ b0 = 0xEE ∨ b0 = 0xEF then
      match rest with
      | b1 :: b2 :: rest2 => isCont b1 && isCont b2 && validUtf8 rest2
      | _ => false
    else if b0 = 0xED then
      match rest with
      | b1 :: b2 :: rest2 =>
        decide (0x80 ≤ b1 ∧ b1 ≤ 0x9F) && isCont b2 && validUtf8 rest2
      | _ => false
    else if b0 = 0xF0 then
      match rest with
      | b1 :: b2 :: b3 :: rest3 =>
        decide (0x90 ≤ b1 ∧ b1 ≤ 0xBF) && isCont b2 && isCont b3 && validUtf8 rest3
      | _ => false
    else if 0xF1 ≤ b0 ∧ b0 ≤ 0xF3 then
      match rest with
      | b1 :: b2 :: b3 :: rest3 =>
        isCont b1 && isCont b2 && isCont b3 && validUtf8 rest3
      | _ => false
    else if b0 = 0xF4 then
      match rest with
      | b1 :: b2 :: b3 :: rest3 =>
        decide (0x80 ≤ b1 ∧ b1 ≤ 0x8F) && isCont b2 && isCont b3 && validUtf8 rest3
      | _ => false
    else false

/-- `impl BinProtRead for String` (src/lib.rs 300-311): read the nat0
length, read exactly that many bytes, validate them as UTF-8 and return
them; invalid UTF-8 is a text-encoding error, never a lossy decode. -/
def readString : Reader (List Nat) := fun s =>
  match read_nat0 s with
  | .error e => .error e
  | .ok (len, s1) =>
    match takeBytes len s1 with
    | none => .error .ioError
    | some (bs, r) => if validUtf8 bs then .ok (bs, r) else .error .utf8Error

/-- Concatenated encodings of a map's key/value pairs, as the write
loops of both map impls produce (src/lib.rs 116-119 and 128-131). -/
def writeEntries (wrK : κ → List Nat) (wrV : ν → List Nat) (l : List (κ × ν)) : List Nat :=
  (l.map (fun kv => wrK kv.1 ++ wrV kv.2)).flatten

/-- `impl BinProtWrite for BTreeMap<K, V>` (src/lib.rs 112-122): nat0
entry count, then the entries in the map's iteration order.  A
`BTreeMap` is modelled as its entry list, whose invariant is strict
key-sortedness (the iteration order of a B-tree). -/
def writeBTreeMap (wrK : κ → List Nat) (wrV : ν → List Nat) (m : List (κ × ν)) : List Nat :=
  write_nat0 m.length ++ writeEntries wrK wrV m

/-- `impl BinProtWrite for HashMap<K, V>` (src/lib.rs 124-134): nat0
entry count, then the entries in the map's iteration order.  A
`HashMap` is modelled as its entry list in iteration order, whose
invariant is key distinctness. -/
def writeHashMap (wrK : κ → List Nat) (wrV : ν → List Nat) (m : List (κ × ν)) : List Nat :=
  write_nat0 m.length ++ writeEntries wrK wrV m

/-- `BTreeMap::insert` on the key-sorted entry-list model; the boolean
reports whether the key was already present (`is_some()` of the
returned old value). -/
def btInsert [LinearOrder κ] (k : κ) (v : ν) : List (κ × ν) → List (κ × ν) × Bool
  | [] => ([(k, v)], false)
  | (k1, v1) :: rest =>
    if k < k1 then ((k, v) :: (k1, v1) :: rest, false)
    else if k = k1 then ((k1, v) :: rest, true)
    else
      match btInsert k v rest with
      | (r, b) => ((k1, v1) :: r, b)

/-- `HashMap::insert` on the entry-list model; the boolean reports
whether the key was already present. -/
def hmInsert [DecidableEq κ] (k : κ) (v : ν) (l : List (κ × ν)) : List (κ × ν) × Bool :=
  if k ∈ l.map Prod.fst then
    (l.map (fun kv => if kv.1 = k then (k, v) else kv), true)
  else (l ++ [(k, v)], false)

/-- The entry loop of `impl BinProtRead for BTreeMap<K, V>`
(src/lib.rs 271-277): read a key then a value, insert, and fail with
the duplicate-key error whenever the key was already present. -/
def readBTreeMapAux [LinearOrder κ] (rdK : Reader κ) (rdV : Reader ν) :
    Nat → List (κ × ν) → Reader (List (κ × ν))
  | 0, res => fun s => .ok (res, s)
  | n + 1, res => fun s =>
    match rdK s with
    | .error e => .error e
    | .ok (k, s1) =>
      match rdV s1 with
      | .error e => .error e
      | .ok (v, s2) =>
        match btInsert k v res with
        | (_, true) => .error .sameKeyAppearsTwiceInMap
        | (res1, false) => readBTreeMapAux rdK rdV n res1 s2

/-- `impl BinProtRead for BTreeMap<K, V>` (src/lib.rs 264-280). -/
def readBTreeMap [LinearOrder κ] (rdK : Reader κ) (rdV : Reader ν) :
    Reader (List (κ × ν)) := fun s =>
  match read_nat0 s with
  | .error e => .error e
  | .ok (len, s1) => readBTreeMapAux rdK rdV len [] s1

/-- The entry loop of `impl BinProtRead for HashMap<K, V>`
(src/lib.rs 289-295). -/
def readHashMapAux [DecidableEq κ] (rdK : Reader κ) (rdV : Reader ν) :
    Nat → List (κ × ν) → Reader (List (κ × ν))
  | 0, res => fun s => .ok (res, s)
  | n + 1, res => fun s =>
    match rdK s with
    | .error e => .error e
    | .ok (k, s1) =>
      match rdV s1 with
      | .error e => .error e
      | .ok (v, s2) =>
        match hmInsert k v res with
        | (_, true) => .error .sameKeyAppearsTwiceInMap
        | (res1, false) => readHashMapAux rdK rdV n res1 s2

/-- `impl BinProtRead for HashMap<K, V>` (src/lib.rs 282-298). -/
def readHashMap [DecidableEq κ] (rdK : Reader κ) (rdV : Reader ν) :
    Reader (List (κ × ν)) := fun s =>
  match read_nat0 s with
  | .error e => .error e
  | .ok (len, s1) => readHashMapAux rdK rdV len [] s1

/-- The 1-tuple impls of the `tuple_impls!` macro (src/lib.rs 136-162):
writing `(a,)` writes `a`, with no prefix. -/
def writeTuple1 (w1 : α → List Nat) : α → List Nat := w1

/-- The 1-tuple read: read the single component. -/
def readTuple1 (r1 : Reader α) : Reader α := r1

/-- The 2-tuple impls of `tuple_impls!` (src/lib.rs 136-163): the two
components' encodings concatenated in positional order, no prefix. -/
def writeTuple2 (w1 : α → List Nat) (w2 : β → List Nat) : α × β → List Nat :=
  fun v => w1 v.1 ++ w2 v.2

/-- The 2-tuple read: the components read sequentially in order. -/
def readTuple2 (r1 : Reader α) (r2 : Reader β) : Reader (α × β) := fun s =>
  match r1 s with
  | .error e => .error e
  | .ok (a, s1) =>
    match r2 s1 with
    | .error e => .error e
    | .ok (b, s2) => .ok ((a, b), s2)

/-- Arity 3 of `tuple_impls!`: positional concatenation; an arity-n
tuple is the n-fold right-nested product, with identical bytes and read
order to the macro expansion. -/
def writeTuple3 (w1 : α → List Nat) (w2 : β → List Nat) (w3 : γ → List Nat) :
    α × β × γ → List Nat :=
  writeTuple2 w1 (writeTuple2 w2 w3)

/-- Arity 3 read of `tuple_impls!`. -/
def readTuple3 (r1 : Reader α) (r2 : Reader β) (r3 : Reader γ) : Reader (α × β × γ) :=
  readTuple2 r1 (readTuple2 r2 r3)

/-- Arity 4 of `tuple_impls!`. -/
def writeTuple4 (w1 : α → List Nat) (w2 : β → List Nat) (w3 : γ → List Nat)
    (w4 : δ → List Nat) : α × β × γ × δ → List Nat :=
  writeTuple2 w1 (writeTuple3 w2 w3 w4)

/-- Arity 4 read of `tuple_impls!`. -/
def readTuple4 (r1 : Reader α) (r2 : Reader β) (r3 : Reader γ) (r4 : Reader δ) :
    Reader (α × β × γ × δ) :=
  readTuple2 r1 (readTuple3 r2 r3 r4)

/-- Arity 5 of `tuple_impls!`. -/
def writeTuple5 (w1 : α1 → List Nat) (w2 : α2 → List Nat) (w3 : α3 → List Nat)
    (w4 : α4 → List Nat) (w5 : α5 → List Nat) : α1 × α2 × α3 × α4 × α5 → List Nat :=
  writeTuple2 w1 (writeTuple4 w2 w3 w4 w5)

/-- Arity 5 read of `tuple_impls!`. -/
def readTuple5 (r1 : Reader α1) (r2 : Reader α2) (r3 : Reader α3) (r4 : Reader α4)
    (r5 : Reader α5) : Reader (α1 × α2 × α3 × α4 × α5) :=
  readTuple2 r1 (readTuple4 r2 r3 r4 r5)

/-- Arity 6 of `tuple_impls!`. -/
def writeTuple6 (w1 : α1 → List Nat) (w2 : α2 → List Nat) (w3 : α3 → List Nat)
    (w4 : α4 → List Nat) (w5 : α5 → List Nat) (w6 : α6 → List Nat) :
    α1 × α2 × α3 × α4 × α5 × α6 → List Nat :=
  writeTuple2 w1 (writeTuple5 w2 w3 w4 w5 w6)

/-- Arity 6 read of `tuple_impls!`. -/
def readTuple6 (r1 : Reader α1) (r2 : Reader α2) (r3 : Reader α3) (r4 : Reader α4)
    (r5 : Reader α5) (r6 : Reader α6) : Reader (α1 × α2 × α3 × α4 × α5 × α6) :=
  readTuple2 r1 (readTuple5 r2 r3 r4 r5 r6)

/-- Arity 7 of `tuple_impls!`. -/
def writeTuple7 (w1 : α1 → List Nat) (w2 : α2 → List Nat) (w3 : α3 → List Nat)
    (w4 : α4 → List Nat) (w5 : α5 → List Nat) (w6 : α6 → List Nat) (w7 : α7 → List Nat) :
    α1 × α2 × α3 × α4 × α5 × α6 × α7 → List Nat :=
  writeTuple2 w1 (writeTuple6 w2 w3 w4 w5 w6 w7)

/-- Arity 7 read of `tuple_impls!`. -/
def readTuple7 (r1 : Reader α1) (r2 : Reader α2) (r3 : Reader α3) (r4 : Reader α4)
    (r5 : Reader α5) (r6 : Reader α6) (r7 : Reader α7) :
    Reader (α1 × α2 × α3 × α4 × α5 × α6 × α7) :=
  readTuple2 r1 (readTuple6 r2 r3 r4 r5 r6 r7)

/-- Arity 8 of `tuple_impls!`. -/
def writeTuple8 (w1 : α1 → List Nat) (w2 : α2 → List Nat) (w3 : α3 → List Nat)
    (w4 : α4 → List Nat) (w5 : α5 → List Nat) (w6 : α6 → List Nat) (w7 : α7 → List Nat)
    (w8 : α8 → List Nat) : α1 × α2 × α3 × α4 × α5 × α6 × α7 × α8 → List Nat :=
  writeTuple2 w1 (writeTuple7 w2 w3 w4 w5 w6 w7 w8)

/-- Arity 8 read of `tuple_impls!`. -/
def readTuple8 (r1 : Reader α1) (r2 : Reader α2) (r3 : Reader α3) (r4 : Reader α4)
    (r5 : Reader α5) (r6 : Reader α6) (r7 : Reader α7) (r8 : Reader α8) :
    Reader (α1 × α2 × α3 × α4 × α5 × α6 × α7 × α8) :=
  readTuple2 r1 (readTuple7 r2 r3 r4 r5 r6 r7 r8)

/-- Arity 9 of `tuple_impls!`. -/
def writeTuple9 (w1 : α1 → List Nat) (w2 : α2 → List Nat) (w3 : α3 → List Nat)
    (w4 : α4 → List Nat) (w5 : α5 → List Nat) (w6 : α6 → List Nat) (w7 : α7 → List Nat)
    (w8 : α8 → List Nat) (w9 : α9 → List Nat) :
    α1 × α2 × α3 × α4 × α5 × α6 × α7 × α8 × α9 → List Nat :=
  writeTuple2 w1 (writeTuple8 w2 w3 w4 w5 w6 w7 w8 w9)

/-- Arity 9 read of `tuple_impls!`. -/
def readTuple9 (r1 : Reader α1) (r2 : Reader α2) (r3 : Reader α3) (r4 : Reader α4)
    (r5 : Reader α5) (r6 : Reader α6) (r7 : Reader α7) (r8 : Reader α8) (r9 : Reader α9) :
    Reader (α1 × α2 × α3 × α4 × α5 × α6 × α7 × α8 × α9) :=
  readTuple2 r1 (readTuple8 r2 r3 r4 r5 r6 r7 r8 r9)

/-- Modelled from the spec: `binprot_size` for `Nat0` — the `traits`
module holding `BinProtSize` is not under the examined sources; the
spec requires the exact byte count of the write, computed without
performing it. -/
def size_nat0 (n : Nat) : Nat :=
  if n ≤ 0x7F then 1
  else if n ≤ 0xFFFF then 3
  else if n ≤ 0xFFFFFFFF then 5
  else 9

/-- Modelled from the spec: `binprot_size` for `i64`. -/
def size_i64 (i : Int) : Nat :=
  if 0 ≤ i ∧ i ≤ 0x7F then 1
  else if -0x80 ≤ i ∧ i ≤ 0x7F then 2
  else if -0x8000 ≤ i ∧ i ≤ 0x7FFF then 3
  else if -0x80000000 ≤ i ∧ i ≤ 0x7FFFFFFF then 5
  else 9

/-- Modelled from the spec: `binprot_size` for `()`. -/
def sizeUnit : Unit → Nat := fun _ => 1

/-- Modelled from the spec: `binprot_size` for `bool`. -/
def sizeBool : Bool → Nat := fun _ => 1

/-- Modelled from the spec: `binprot_size` for `f64`. -/
def sizeF64 : Nat → Nat := fun _ => 8

/-- Modelled from the spec: `binprot_size` for `String` and `&str`. -/
def sizeString (bs : List Nat) : Nat := size_nat0 bs.length + bs.length

/-- Modelled from the spec: `binprot_size` for `Option<T>`. -/
def sizeOption (sz : α → Nat) : Option α → Nat
  | Option.none => 1
  | Option.some v => 1 + sz v

/-- Modelled from the spec: `binprot_size` for `Vec<T>` and `&[T]`. -/
def sizeVec (sz : α → Nat) (l : List α) : Nat :=
  size_nat0 l.length + (l.map sz).sum

/-- Modelled from the spec: the summed sizes of a map's entries. -/
def sizeEntries (szK : κ → Nat) (szV : ν → Nat) (l : List (κ × ν)) : Nat :=
  (l.map (fun kv => szK kv.1 + szV kv.2)).sum

/-- Modelled from the spec: `binprot_size` for both map types. -/
def sizeMap (szK : κ → Nat) (szV : ν → Nat) (l : List (κ × ν)) : Nat :=
  size_nat0 l.length + sizeEntries szK szV l

/-- Modelled from the spec: `binprot_size` for the 2-tuple; higher
arities nest it. -/
def sizeTuple2 (sz1 : α → Nat) (sz2 : β → Nat) : α × β → Nat :=
  fun v => sz1 v.1 + sz2 v.2

/-- Modelled from the spec: `binprot_size` for `WithLen<T>`. -/
def sizeWithLen (sz : α → Nat) (v : α) : Nat := size_nat0 (sz v) + sz v

/-- `impl BinProtWrite for WithLen<T>` (src/lib.rs 316-322): the nat0
inner size, then the inner encoding.  The newtype wrapper `WithLen` is
modelled as the inner value itself. -/
def writeWithLen (sz : α → Nat) (wr : α → List Nat) (v : α) : List Nat :=
  write_nat0 (sz v) ++ wr v

/-- `impl BinProtRead for WithLen<T>` (src/lib.rs 324-333): read the
nat0 length, ignore it, and decode the inner value recursively. -/
def readWithLen (rd : Reader α) : Reader α := fun s =>
  match read_nat0 s with
  | .error e => .error e
  | .ok (_, s1) => rd s1

/-- `binprot_write_with_size` (src/lib.rs 17-21): the declared size as
an 8-byte little-endian signed integer, then the payload. -/
def binprot_write_with_size (sz : α → Nat) (wr : α → List Nat) (v : α) : List Nat :=
  leBytes 8 (sz v) ++ wr v

/-- `binprot_read_with_size` (src/lib.rs 24-28): read (and ignore) the
8-byte little-endian length, then decode the payload recursively. -/
def binprot_read_with_size (rd : Reader α) : Reader α := fun s =>
  match takeBytes 8 s with
  | none => .error .ioError
  | some (_, s1) => rd s1

/-- The 8-byte little-endian signed read of the `byteorder` crate, used
by `binprot_read_with_size` for its length field. -/
def read_i64_le : Reader Int := fun s =>
  match takeBytes 8 s with
  | none => .error .ioError
  | some (bs, r) => .ok (toSigned 8 (leVal bs), r)

/-- `rd` exactly inverts `wr` on values satisfying `P`: decoding a
stream that starts with `wr v` consumes exactly those bytes and returns
`v` — the round-trip contract of `BinProtRead` against `BinProtWrite`. -/
def RT (P : α → Prop) (wr : α → List Nat) (rd : Reader α) : Prop :=
  ∀ v s, P v → rd (wr v ++ s) = .ok (v, s)

/-- `sz` returns the exact byte count of `wr` on values satisfying `P`
— the size-accounting contract of `BinProtSize`. -/
def SizeOk (P : α → Prop) (wr : α → List Nat) (sz : α → Nat) : Prop :=
  ∀ v, P v → (wr v).length = sz v

theorem takeBytes_leBytes (k n : Nat) (s : List Nat) :
    takeBytes k (leBytes k n ++ s) = some (leBytes k n, s) := by
  have h := takeBytes_append (leBytes k n) s
  rwa [leBytes_length] at h

theorem rt_nat0 (n : Nat) (s : List Nat) (h : n < 2 ^ 64) :
    read_nat0 (write_nat0 n ++ s) = .ok (n, s) := by
  have p16 : (2 : Nat) ^ (8 * 2) = 65536 := by norm_num
  have p32 : (2 : Nat) ^ (8 * 4) = 4294967296 := by norm_num
  have p64 : (2 : Nat) ^ (8 * 8) = 18446744073709551616 := by norm_num
  have p64' : (2 : Nat) ^ 64 = 18446744073709551616 := by norm_num
  unfold write_nat0
  split_ifs with h1 h2 h3
  · simp [read_nat0, show n ≠ 0xFC by omega, show n ≠ 0xFD by omega,
      show n ≠ 0xFE by omega, show n ≠ 0xFF by omega, h1]
  · simp [read_nat0, takeBytes_leBytes, leVal_leBytes 2 n (by omega)]
  · simp [read_nat0, takeBytes_leBytes, leVal_leBytes 4 n (by omega)]
  · simp [read_nat0, takeBytes_leBytes, leVal_leBytes 8 n (by omega)]

theorem rt_signed (i : Int) (s : List Nat) (hlo : -(2 ^ 63) ≤ i) (hhi : i < 2 ^ 63) :
    read_signed (write_i64 i ++ s) = .ok (i, s) := by
  have q8 : (2 : Int) ^ 8 = 256 := by norm_num
  have q16 : (2 : Int) ^ 16 = 65536 := by norm_num
  have q32 : (2 : Int) ^ 32 = 4294967296 := by norm_num
  have q64 : (2 : Int) ^ 64 = 18446744073709551616 := by norm_num
  have q63 : (2 : Int) ^ 63 = 9223372036854775808 := by norm_num
  unfold write_i64
  split_ifs with h1 h2 h3 h4
  · simp [read_signed, show i.toNat ≠ 0xFC by omega, show i.toNat ≠ 0xFD by omega,
      show i.toNat ≠ 0xFE by omega, show i.toNat ≠ 0xFF by omega,
      show i.toNat ≤ 0x7F by omega]
    omega
  · have hv : leVal (leBytes 1 (i % 256).toNat) = (i % 256).toNat := by
      refine leVal_leBytes 1 _ ?_
      have : (2 : Nat) ^ (8 * 1) = 256 := by norm_num
      omega
    simp [read_signed, takeBytes_leBytes, hv]
    unfold toSigned
    have e1 : (2 : Nat) ^ (8 * 1 - 1) = 128 := by norm_num
    have e2 : (2 : Int) ^ (8 * 1) = 256 := by norm_num
    split_ifs <;> omega
  · have hv : leVal (leBytes 2 (i % 65536).toNat) = (i % 65536).toNat := by
      refine leVal_leBytes 2 _ ?_
      have : (2 : Nat) ^ (8 * 2) = 65536 := by norm_num
      omega
    simp [read_signed, takeBytes_leBytes, hv]
    unfold toSigned
    have e1 : (2 : Nat) ^ (8 * 2 - 1) = 32768 := by norm_num
    have e2 : (2 : Int) ^ (8 * 2) = 65536 := by norm_num
    split_ifs <;> omega
  · have hv : leVal (leBytes 4 (i % 4294967296).toNat) = (i % 4294967296).toNat := by
      refine leVal_leBytes 4 _ ?_
      have : (2 : Nat) ^ (8 * 4) = 4294967296 := by norm_num
      omega
    simp [read_signed, takeBytes_leBytes, hv]
    unfold toSigned
    have e1 : (2 : Nat) ^ (8 * 4 - 1) = 2147483648 := by norm_num
    have e2 : (2 : Int) ^ (8 * 4) = 4294967296 := by norm_num
    split_ifs <;> omega
  · have hv : leVal (leBytes 8 (i % 18446744073709551616).toNat) =
        (i % 18446744073709551616).toNat := by
      refine leVal_leBytes 8 _ ?_
      have : (2 : Nat) ^ (8 * 8) = 18446744073709551616 := by norm_num
      omega
    simp [read_signed, takeBytes_leBytes, hv]
    unfold toSigned
    have e1 : (2 : Nat) ^ (8 * 8 - 1) = 9223372036854775808 := by norm_num
    have e2 : (2 : Int) ^ (8 * 8) = 18446744073709551616 := by norm_num
    split_ifs <;> omega

theorem rt_unit : RT (fun _ : Unit => True) writeUnit readUnit := by
  intro v s _
  cases v
  simp [writeUnit, readUnit]

theorem rt_bool : RT (fun _ : Bool => True) writeBool readBool := by
  intro v s _
  cases v <;> simp [writeBool, readBool]

theorem rt_f64 : RT (fun bits => bits < 2 ^ 64) writeF64 readF64 := by
  intro v s h
  have hlt : v < 2 ^ (8 * 8) := by
    have : (2 : Nat) ^ (8 * 8) = 2 ^ 64 := by norm_num
    omega
  simp [writeF64, readF64, takeBytes_leBytes, leVal_leBytes 8 v hlt]

theorem readString_write (bs s : List Nat) (h : bs.length < 2 ^ 64) :
    readString (writeString bs ++ s) =
      if validUtf8 bs then .ok (bs, s) else .error .utf8Error := by
  unfold readString writeString
  rw [List.append_assoc, rt_nat0 bs.length (bs ++ s) h]
  simp [takeBytes_append]

theorem rt_string :
    RT (fun bs => validUtf8 bs = true ∧ bs.length < 2 ^ 64) writeString readString := by
  intro v s h
  rw [readString_write v s h.2, if_pos h.1]

theorem rt_option {α : Type} (P : α → Prop) (wr : α → List Nat) (rd : Reader α)
    (h : RT P wr rd) : RT (fun v => ∀ x ∈ v, P x) (writeOption wr) (readOption rd) := by
  intro v s hv
  cases v with
  | none => simp [writeOption, readOption]
  | some x => simp [writeOption, readOption, h x s (hv x rfl)]

theorem rt_vecAux {α : Type} (P : α → Prop) (wr : α → List Nat) (rd : Reader α)
    (h : RT P wr rd) :
    ∀ (l : List α) (s : List Nat), (∀ x ∈ l, P x) →
      readVecAux rd l.length ((l.map wr).flatten ++ s) = .ok (l, s) := by
  intro l
  induction l with
  | nil => intro s _; simp [readVecAux]
  | cons x xs ih =>
    intro s hl
    simp only [List.map_cons, List.flatten_cons, List.length_cons, List.append_assoc]
    simp [readVecAux, h x _ (hl x (by simp)),
      ih _ (fun y hy => hl y (by simp [hy]))]

theorem rt_vec {α : Type} (P : α → Prop) (wr : α → List Nat) (rd : Reader α)
    (h : RT P wr rd) :
    RT (fun l => (∀ x ∈ l, P x) ∧ l.length < 2 ^ 64) (writeVec wr) (readVec rd) := by
  intro l s hl
  unfold writeVec readVec
  rw [List.append_assoc, rt_nat0 _ _ hl.2]
  exact rt_vecAux P wr rd h l s hl.1

theorem rt_tuple2 {α β : Type} (P : α → Prop) (Q : β → Prop)
    (w1 : α → List Nat) (r1 : Reader α) (w2 : β → List Nat) (r2 : Reader β)
    (h1 : RT P w1 r1) (h2 : RT Q w2 r2) :
    RT (fun v => P v.1 ∧ Q v.2) (writeTuple2 w1 w2) (readTuple2 r1 r2) := by
  intro v s hv
  obtain ⟨a, b⟩ := v
  simp [writeTuple2, readTuple2, List.append_assoc, h1 a _ hv.1, h2 b _ hv.2]

theorem rt_withLen {α : Type} (P : α → Prop) (wr : α → List Nat) (rd : Reader α)
    (sz : α → Nat) (h : RT P wr rd) :
    RT (fun v => P v ∧ sz v < 2 ^ 64) (writeWithLen sz wr) (readWithLen rd) := by
  intro v s hv
  unfold writeWithLen readWithLen
  rw [List.append_assoc, rt_nat0 _ _ hv.2]
  exact h v s hv.1

theorem writeEntries_nil (wrK : κ → List Nat) (wrV : ν → List Nat) :
    writeEntries wrK wrV [] = [] := rfl

theorem writeEntries_cons (wrK : κ → List Nat) (wrV : ν → List Nat) (k : κ) (v : ν)
    (rest : List (κ × ν)) :
    writeEntries wrK wrV ((k, v) :: rest) = wrK k ++ (wrV v ++ writeEntries wrK wrV rest) := by
  simp [writeEntries]

theorem btInsert_append [LinearOrder κ] (k : κ) (v : ν) (res : List (κ × ν))
    (h : ∀ kv ∈ res, kv.1 < k) : btInsert k v res = (res ++ [(k, v)], false) := by
  induction res with
  | nil => rfl
  | cons kv rest ih =>
    obtain ⟨k1, v1⟩ := kv
    have hk1 : k1 < k := h (k1, v1) (by simp)
    simp [btInsert, lt_asymm hk1, ne_of_gt hk1,
      ih (fun kv1 h1 => h kv1 (by simp [h1]))]

theorem rt_btreeMapAux [LinearOrder κ] (P : κ → Prop) (Q : ν → Prop)
    (wrK : κ → List Nat) (rdK : Reader κ) (wrV : ν → List Nat) (rdV : Reader ν)
    (hK : RT P wrK rdK) (hV : RT Q wrV rdV) :
    ∀ (l res : List (κ × ν)) (s : List Nat),
      (∀ kv ∈ l, P kv.1 ∧ Q kv.2) →
      (∀ kv1 ∈ res, ∀ kv2 ∈ l, kv1.1 < kv2.1) →
      List.Pairwise (fun a b => a.1 < b.1) l →
      readBTreeMapAux rdK rdV l.length res (writeEntries wrK wrV l ++ s) =
        .ok (res ++ l, s) := by
  intro l
  induction l with
  | nil =>
    intro res s _ _ _
    simp [readBTreeMapAux, writeEntries_nil]
  | cons kv rest ih =>
    obtain ⟨k, v⟩ := kv
    intro res s hPQ hlt hsort
    have hins : btInsert k v res = (res ++ [(k, v)], false) :=
      btInsert_append k v res (fun kv1 h1 => hlt kv1 h1 (k, v) (by simp))
    have hlt1 : ∀ kv1 ∈ res ++ [(k, v)], ∀ kv2 ∈ rest, kv1.1 < kv2.1 := by
      intro kv1 h1 kv2 h2
      rcases List.mem_append.mp h1 with h1 | h1
      · exact hlt kv1 h1 kv2 (by simp [h2])
      · have he : kv1 = (k, v) := by simpa using h1
        subst he
        exact (List.pairwise_cons.mp hsort).1 kv2 h2
    rw [writeEntries_cons, List.length_cons, List.append_assoc, List.append_assoc]
    simp [readBTreeMapAux, hK k _ (hPQ (k, v) (by simp)).1,
      hV v _ (hPQ (k, v) (by simp)).2, hins,
      ih (res ++ [(k, v)]) s (fun kv2 h2 => hPQ kv2 (by simp [h2])) hlt1
        (List.pairwise_cons.mp hsort).2]

theorem rt_btreeMap [LinearOrder κ] (P : κ → Prop) (Q : ν → Prop)
    (wrK : κ → List Nat) (rdK : Reader κ) (wrV : ν → List Nat) (rdV : Reader ν)
    (hK : RT P wrK rdK) (hV : RT Q wrV rdV) (m : List (κ × ν)) (s : List Nat)
    (hsort : List.Pairwise (fun a b => a.1 < b.1) m)
    (hPQ : ∀ kv ∈ m, P kv.1 ∧ Q kv.2) (hlen : m.length < 2 ^ 64) :
    readBTreeMap rdK rdV (writeBTreeMap wrK wrV m ++ s) = .ok (m, s) := by
  unfold writeBTreeMap readBTreeMap
  rw [List.append_assoc, rt_nat0 _ _ hlen]
  have h := rt_btreeMapAux P Q wrK rdK wrV rdV hK hV m [] s hPQ (by simp) hsort
  simpa using h

theorem hmInsert_append [DecidableEq κ] (k : κ) (v : ν) (res : List (κ × ν))
    (h : k ∉ res.map Prod.fst) : hmInsert k v res = (res ++ [(k, v)], false) := by
  simp [hmInsert, h]

theorem rt_hashMapAux [DecidableEq κ] (P : κ → Prop) (Q : ν → Prop)
    (wrK : κ → List Nat) (rdK : Reader κ) (wrV : ν → List Nat) (rdV : Reader ν)
    (hK : RT P wrK rdK) (hV : RT Q wrV rdV) :
    ∀ (l res : List (κ × ν)) (s : List Nat),
      (∀ kv ∈ l, P kv.1 ∧ Q kv.2) →
      (res.map Prod.fst ++ l.map Prod.fst).Nodup →
      readHashMapAux rdK rdV l.length res (writeEntries wrK wrV l ++ s) =
        .ok (res ++ l, s) := by
  intro l
  induction l with
  | nil =>
    intro res s _ _
    simp [readHashMapAux, writeEntries_nil]
  | cons kv rest ih =>
    obtain ⟨k, v⟩ := kv
    intro res s hPQ hnd
    have hnd1 : ((res ++ [(k, v)]).map Prod.fst ++ rest.map Prod.fst).Nodup := by
      simpa [List.append_assoc] using hnd
    have hk : k ∉ res.map Prod.fst := by
      intro hmem
      have hdisj := (List.nodup_append.mp (by simpa using hnd)).2.2
      exact hdisj hmem (by simp)
    rw [writeEntries_cons, List.length_cons, List.append_assoc, List.append_assoc]
    simp [readHashMapAux, hK k _ (hPQ (k, v) (by simp)).1,
      hV v _ (hPQ (k, v) (by simp)).2, hmInsert_append k v res hk,
      ih (res ++ [(k, v)]) s (fun kv2 h2 => hPQ kv2 (by simp [h2])) hnd1]

theorem rt_hashMap [DecidableEq κ] (P : κ → Prop) (Q : ν → Prop)
    (wrK : κ → List Nat) (rdK : Reader κ) (wrV : ν → List Nat) (rdV : Reader ν)
    (hK : RT P wrK rdK) (hV : RT Q wrV rdV) (m : List (κ × ν)) (s : List Nat)
    (hnd : (m.map Prod.fst).Nodup)
    (hPQ : ∀ kv ∈ m, P kv.1 ∧ Q kv.2) (hlen : m.length < 2 ^ 64) :
    readHashMap rdK rdV (writeHashMap wrK wrV m ++ s) = .ok (m, s) := by
  unfold writeHashMap readHashMap
  rw [List.append_assoc, rt_nat0 _ _ hlen]
  have h := rt_hashMapAux P Q wrK rdK wrV rdV hK hV m [] s hPQ (by simpa using hnd)
  simpa using h

/-- C1: Round-trip law — for every supported type (unit, bool, f64,
i64, Nat0, Option, Vec, String, BTreeMap, HashMap, tuples of arity 1-9,
WithLen) and every representable value `v`, reading the bytes written
for `v` succeeds, consumes exactly the encoding, and yields `v`; the
primitive laws plus the container preservation laws below cover every
type composed from the supported grammar.  For the hash map the
recovered entry list is equal to the written one as a set of entries (a
permutation), the map-ordering caveat of the claim. -/
theorem roundTrip_all_supported_types :
    RT (fun _ : Unit => True) writeUnit readUnit ∧
    RT (fun _ : Bool => True) writeBool readBool ∧
    RT (fun bits => bits < 2 ^ 64) writeF64 readF64 ∧
    RT (fun i : Int => -(2 ^ 63) ≤ i ∧ i < 2 ^ 63) write_i64 read_signed ∧
    RT (fun n => n < 2 ^ 64) write_nat0 read_nat0 ∧
    RT (fun bs => validUtf8 bs = true ∧ bs.length < 2 ^ 64) writeString readString ∧
    (∀ (α : Type) (P : α → Prop) (wr : α → List Nat) (rd : Reader α), RT P wr rd →
      RT (fun v => ∀ x ∈ v, P x) (writeOption wr) (readOption rd)) ∧
    (∀ (α : Type) (P : α → Prop) (wr : α → List Nat) (rd : Reader α), RT P wr rd →
      RT (fun l => (∀ x ∈ l, P x) ∧ l.length < 2 ^ 64) (writeVec wr) (readVec rd)) ∧
    (∀ (κ ν : Type) [LinearOrder κ] (P : κ → Prop) (Q : ν → Prop)
        (wrK : κ → List Nat) (rdK : Reader κ) (wrV : ν → List Nat) (rdV : Reader ν),
      RT P wrK rdK → RT Q wrV rdV →
      ∀ (m : List (κ × ν)) (s : List Nat),
        List.Pairwise (fun a b => a.1 < b.1) m →
        (∀ kv ∈ m, P kv.1 ∧ Q kv.2) → m.length < 2 ^ 64 →
        readBTreeMap rdK rdV (writeBTreeMap wrK wrV m ++ s) = .ok (m, s)) ∧
    (∀ (κ ν : Type) [DecidableEq κ] (P : κ → Prop) (Q : ν → Prop)
        (wrK : κ → List Nat) (rdK : Reader κ) (wrV : ν → List Nat) (rdV : Reader ν),
      RT P wrK rdK → RT Q wrV rdV →
      ∀ (m : List (κ × ν)) (s : List Nat),
        (m.map Prod.fst).Nodup →
        (∀ kv ∈ m, P kv.1 ∧ Q kv.2) → m.length < 2 ^ 64 →
        ∃ m2, readHashMap rdK rdV (writeHashMap wrK wrV m ++ s) = .ok (m2, s) ∧
          m2.Perm m) ∧
    (∀ (α : Type) (P : α → Prop) (wr : α → List Nat) (rd : Reader α), RT P wr rd →
      RT P (writeTuple1 wr) (readTuple1 rd)) ∧
    (∀ (α β : Type) (P1 : α → Prop) (P2 : β → Prop) (w1 : α → List Nat) (r1 : Reader α)
        (w2 : β → List Nat) (r2 : Reader β), RT P1 w1 r1 → RT P2 w2 r2 →
      RT (fun v => P1 v.1 ∧ P2 v.2) (writeTuple2 w1 w2) (readTuple2 r1 r2)) ∧
    (∀ (α β γ : Type) (P1 : α → Prop) (P2 : β → Prop) (P3 : γ → Prop)
        (w1 : α → List Nat) (r1 : Reader α) (w2 : β → List Nat) (r2 : Reader β)
        (w3 : γ → List Nat) (r3 : Reader γ),
      RT P1 w1 r1 → RT P2 w2 r2 → RT P3 w3 r3 →
      RT (fun v => P1 v.1 ∧ P2 v.2.1 ∧ P3 v.2.2)
        (writeTuple3 w1 w2 w3) (readTuple3 r1 r2 r3)) ∧
    (∀ (α1 α2 α3 α4 : Type) (P1 : α1 → Prop) (P2 : α2 → Prop) (P3 : α3 → Prop)
        (P4 : α4 → Prop) (w1 : α1 → List Nat) (r1 : Reader α1) (w2 : α2 → List Nat)
        (r2 : Reader α2) (w3 : α3 → List Nat) (r3 : Reader α3) (w4 : α4 → List Nat)
        (r4 : Reader α4),
      RT P1 w1 r1 → RT P2 w2 r2 → RT P3 w3 r3 → RT P4 w4 r4 →
      RT (fun v => P1 v.1 ∧ P2 v.2.1 ∧ P3 v.2.2.1 ∧ P4 v.2.2.2)
        (writeTuple4 w1 w2 w3 w4) (readTuple4 r1 r2 r3 r4)) ∧
    (∀ (α1 α2 α3 α4 α5 : Type) (P1 : α1 → Prop) (P2 : α2 → Prop) (P3 : α3 → Prop)
        (P4 : α4 → Prop) (P5 : α5 → Prop)
        (w1 : α1 → List Nat) (r1 : Reader α1) (w2 : α2 → List Nat) (r2 : Reader α2)
        (w3 : α3 → List Nat) (r3 : Reader α3) (w4 : α4 → List Nat) (r4 : Reader α4)
        (w5 : α5 → List Nat) (r5 : Reader α5),
      RT P1 w1 r1 → RT P2 w2 r2 → RT P3 w3 r3 → RT P4 w4 r4 → RT P5 w5 r5 →
      RT (fun v => P1 v.1 ∧ P2 v.2.1 ∧ P3 v.2.2.1 ∧ P4 v.2.2.2.1 ∧ P5 v.2.2.2.2)
        (writeTuple5 w1 w2 w3 w4 w5) (readTuple5 r1 r2 r3 r4 r5)) ∧
    (∀ (α1 α2 α3 α4 α5 α6 : Type) (P1 : α1 → Prop) (P2 : α2 → Prop) (P3 : α3 → Prop)
        (P4 : α4 → Prop) (P5 : α5 → Prop) (P6 : α6 → Prop)
        (w1 : α1 → List Nat) (r1 : Reader α1) (w2 : α2 → List Nat) (r2 : Reader α2)
        (w3 : α3 → List Nat) (r3 : Reader α3) (w4 : α4 → List Nat) (r4 : Reader α4)
        (w5 : α5 → List Nat) (r5 : Reader α5) (w6 : α6 → List Nat) (r6 : Reader α6),
      RT P1 w1 r1 → RT P2 w2 r2 → RT P3 w3 r3 → RT P4 w4 r4 → RT P5 w5 r5 →
      RT P6 w6 r6 →
      RT (fun v => P1 v.1 ∧ P2 v.2.1 ∧ P3 v.2.2.1 ∧ P4 v.2.2.2.1 ∧ P5 v.2.2.2.2.1 ∧
          P6 v.2.2.2.2.2)
        (writeTuple6 w1 w2 w3 w4 w5 w6) (readTuple6 r1 r2 r3 r4 r5 r6)) ∧
    (∀ (α1 α2 α3 α4 α5 α6 α7 : Type) (P1 : α1 → Prop) (P2 : α2 → Prop) (P3 : α3 → Prop)
        (P4 : α4 → Prop) (P5 : α5 → Prop) (P6 : α6 → Prop) (P7 : α7 → Prop)
        (w1 : α1 → List Nat) (r1 : Reader α1) (w2 : α2 → List Nat) (r2 : Reader α2)
        (w3 : α3 → List Nat) (r3 : Reader α3) (w4 : α4 → List Nat) (r4 : Reader α4)
        (w5 : α5 → List Nat) (r5 : Reader α5) (w6 : α6 → List Nat) (r6 : Reader α6)
        (w7 : α7 → List Nat) (r7 : Reader α7),
      RT P1 w1 r1 → RT P2 w2 r2 → RT P3 w3 r3 → RT P4 w4 r4 → RT P5 w5 r5 →
      RT P6 w6 r6 → RT P7 w7 r7 →
      RT (fun v => P1 v.1 ∧ P2 v.2.1 ∧ P3 v.2.2.1 ∧ P4 v.2.2.2.1 ∧ P5 v.2.2.2.2.1 ∧
          P6 v.2.2.2.2.2.1 ∧ P7 v.2.2.2.2.2.2)
        (writeTuple7 w1 w2 w3 w4 w5 w6 w7) (readTuple7 r1 r2 r3 r4 r5 r6 r7)) ∧
    (∀ (α1 α2 α3 α4 α5 α6 α7 α8 : Type) (P1 : α1 → Prop) (P2 : α2 → Prop)
        (P3 : α3 → Prop) (P4 : α4 → Prop) (P5 : α5 → Prop) (P6 : α6 → Prop)
        (P7 : α7 → Prop) (P8 : α8 → Prop)
        (w1 : α1 → List Nat) (r1 : Reader α1) (w2 : α2 → List Nat) (r2 : Reader α2)
        (w3 : α3 → List Nat) (r3 : Reader α3) (w4 : α4 → List Nat) (r4 : Reader α4)
        (w5 : α5 → List Nat) (r5 : Reader α5) (w6 : α6 → List Nat) (r6 : Reader α6)
        (w7 : α7 → List Nat) (r7 : Reader α7) (w8 : α8 → List Nat) (r8 : Reader α8),
      RT P1 w1 r1 → RT P2 w2 r2 → RT P3 w3 r3 → RT P4 w4 r4 → RT P5 w5 r5 →
      RT P6 w6 r6 → RT P7 w7 r7 → RT P8 w8 r8 →
      RT (fun v => P1 v.1 ∧ P2 v.2.1 ∧ P3 v.2.2.1 ∧ P4 v.2.2.2.1 ∧ P5 v.2.2.2.2.1 ∧
          P6 v.2.2.2.2.2.1 ∧ P7 v.2.2.2.2.2.2.1 ∧ P8 v.2.2.2.2.2.2.2)
        (writeTuple8 w1 w2 w3 w4 w5 w6 w7 w8) (readTuple8 r1 r2 r3 r4 r5 r6 r7 r8)) ∧
    (∀ (α1 α2 α3 α4 α5 α6 α7 α8 α9 : Type) (P1 : α1 → Prop) (P2 : α2 → Prop)
        (P3 : α3 → Prop) (P4 : α4 → Prop) (P5 : α5 → Prop) (P6 : α6 → Prop)
        (P7 : α7 → Prop) (P8 : α8 → Prop) (P9 : α9 → Prop)
        (w1 : α1 → List Nat) (r1 : Reader α1) (w2 : α2 → List Nat) (r2 : Reader α2)
        (w3 : α3 → List Nat) (r3 : Reader α3) (w4 : α4 → List Nat) (r4 : Reader α4)
        (w5 : α5 → List Nat) (r5 : Reader α5) (w6 : α6 → List Nat) (r6 : Reader α6)
        (w7 : α7 → List Nat) (r7 : Reader α7) (w8 : α8 → List Nat) (r8 : Reader α8)
        (w9 : α9 → List Nat) (r9 : Reader α9),
      RT P1 w1 r1 → RT P2 w2 r2 → RT P3 w3 r3 → RT P4 w4 r4 → RT P5 w5 r5 →
      RT P6 w6 r6 → RT P7 w7 r7 → RT P8 w8 r8 → RT P9 w9 r9 →
      RT (fun v => P1 v.1 ∧ P2 v.2.1 ∧ P3 v.2.2.1 ∧ P4 v.2.2.2.1 ∧ P5 v.2.2.2.2.1 ∧
          P6 v.2.2.2.2.2.1 ∧ P7 v.2.2.2.2.2.2.1 ∧ P8 v.2.2.2.2.2.2.2.1 ∧
          P9 v.2.2.2.2.2.2.2.2)
        (writeTuple9 w1 w2 w3 w4 w5 w6 w7 w8 w9)
        (readTuple9 r1 r2 r3 r4 r5 r6 r7 r8 r9)) ∧
    (∀ (α : Type) (P : α → Prop) (wr : α → List Nat) (rd : Reader α) (sz : α → Nat),
      RT P wr rd →
      RT (fun v => P v ∧ sz v < 2 ^ 64) (writeWithLen sz wr) (readWithLen rd)) := by
  refine ⟨rt_unit, rt_bool, rt_f64, ?_, ?_, rt_string,
    fun α P wr rd h => rt_option P wr rd h,
    fun α P wr rd h => rt_vec P wr rd h, ?_, ?_,
    ?_, fun α β P1 P2 w1 r1 w2 r2 h1 h2 => rt_tuple2 P1 P2 w1 r1 w2 r2 h1 h2,
    ?_, ?_, ?_, ?_, ?_, ?_, ?_,
    fun α P wr rd sz h => rt_withLen P wr rd sz h⟩
  · exact fun i s h => rt_signed i s h.1 h.2
  · exact fun n s h => rt_nat0 n s h
  · intro κ ν inst P Q wrK rdK wrV rdV hK hV m s hsort hPQ hlen
    exact rt_btreeMap P Q wrK rdK wrV rdV hK hV m s hsort hPQ hlen
  · intro κ ν inst P Q wrK rdK wrV rdV hK hV m s hnd hPQ hlen
    exact ⟨m, rt_hashMap P Q wrK rdK wrV rdV hK hV m s hnd hPQ hlen, List.Perm.refl m⟩
  · exact fun α P wr rd h => h
  · intro α β γ P1 P2 P3 w1 r1 w2 r2 w3 r3 h1 h2 h3
    exact rt_tuple2 _ _ _ _ _ _ h1 (rt_tuple2 _ _ _ _ _ _ h2 h3)
  · intro α1 α2 α3 α4 P1 P2 P3 P4 w1 r1 w2 r2 w3 r3 w4 r4 h1 h2 h3 h4
    exact rt_tuple2 _ _ _ _ _ _ h1
      (rt_tuple2 _ _ _ _ _ _ h2 (rt_tuple2 _ _ _ _ _ _ h3 h4))
  · intro α1 α2 α3 α4 α5 P1 P2 P3 P4 P5 w1 r1 w2 r2 w3 r3 w4 r4 w5 r5 h1 h2 h3 h4 h5
    exact rt_tuple2 _ _ _ _ _ _ h1 (rt_tuple2 _ _ _ _ _ _ h2
      (rt_tuple2 _ _ _ _ _ _ h3 (rt_tuple2 _ _ _ _ _ _ h4 h5)))
  · intro α1 α2 α3 α4 α5 α6 P1 P2 P3 P4 P5 P6 w1 r1 w2 r2 w3 r3 w4 r4 w5 r5 w6 r6
      h1 h2 h3 h4 h5 h6
    exact rt_tuple2 _ _ _ _ _ _ h1 (rt_tuple2 _ _ _ _ _ _ h2
      (rt_tuple2 _ _ _ _ _ _ h3 (rt_tuple2 _ _ _ _ _ _ h4
        (rt_tuple2 _ _ _ _ _ _ h5 h6))))
  · intro α1 α2 α3 α4 α5 α6 α7 P1 P2 P3 P4 P5 P6 P7 w1 r1 w2 r2 w3 r3 w4 r4 w5 r5
      w6 r6 w7 r7 h1 h2 h3 h4 h5 h6 h7
    exact rt_tuple2 _ _ _ _ _ _ h1 (rt_tuple2 _ _ _ _ _ _ h2
      (rt_tuple2 _ _ _ _ _ _ h3 (rt_tuple2 _ _ _ _ _ _ h4
        (rt_tuple2 _ _ _ _ _ _ h5 (rt_tuple2 _ _ _ _ _ _ h6 h7)))))
  · intro α1 α2 α3 α4 α5 α6 α7 α8 P1 P2 P3 P4 P5 P6 P7 P8 w1 r1 w2 r2 w3 r3 w4 r4
      w5 r5 w6 r6 w7 r7 w8 r8 h1 h2 h3 h4 h5 h6 h7 h8
    exact rt_tuple2 _ _ _ _ _ _ h1 (rt_tuple2 _ _ _ _ _ _ h2
      (rt_tuple2 _ _ _ _ _ _ h3 (rt_tuple2 _ _ _ _ _ _ h4
        (rt_tuple2 _ _ _ _ _ _ h5 (rt_tuple2 _ _ _ _ _ _ h6
          (rt_tuple2 _ _ _ _ _ _ h7 h8))))))
  · intro α1 α2 α3 α4 α5 α6 α7 α8 α9 P1 P2 P3 P4 P5 P6 P7 P8 P9 w1 r1 w2 r2 w3 r3
      w4 r4 w5 r5 w6 r6 w7 r7 w8 r8 w9 r9 h1 h2 h3 h4 h5 h6 h7 h8 h9
    exact rt_tuple2 _ _ _ _ _ _ h1 (rt_tuple2 _ _ _ _ _ _ h2
      (rt_tuple2 _ _ _ _ _ _ h3 (rt_tuple2 _ _ _ _ _ _ h4
        (rt_tuple2 _ _ _ _ _ _ h5 (rt_tuple2 _ _ _ _ _ _ h6
          (rt_tuple2 _ _ _ _ _ _ h7 (rt_tuple2 _ _ _ _ _ _ h8 h9)))))))

/-- Closed instances of the C1 round-trip law at concrete values of
several supported types. -/
theorem roundTrip_all_supported_types_witness :
    read_signed (write_i64 (-1234) ++ [7]) = .ok (-1234, [7]) ∧
    readVec read_nat0 (writeVec write_nat0 [1, 300, 2] ++ []) = .ok ([1, 300, 2], []) ∧
    readString (writeString [0x68, 0xC3, 0xA9] ++ [9]) = .ok ([0x68, 0xC3, 0xA9], [9]) ∧
    readBTreeMap read_nat0 readBool
      (writeBTreeMap write_nat0 writeBool [(1, true), (2, false)] ++ []) =
      .ok ([(1, true), (2, false)], []) ∧
    (∃ m2, readHashMap read_nat0 read_nat0
        (writeHashMap write_nat0 write_nat0 [(5, 6), (1, 2)] ++ []) = .ok (m2, []) ∧
      m2.Perm [(5, 6), (1, 2)]) ∧
    readWithLen (readTuple3 readBool read_nat0 readUnit)
      (writeWithLen (sizeTuple2 sizeBool (sizeTuple2 size_nat0 sizeUnit))
        (writeTuple3 writeBool write_nat0 writeUnit) (true, 5, ()) ++ []) =
      .ok ((true, 5, ()), []) := by
  obtain ⟨hu, hb, hf, hi, hn, hs, hopt, hvec, hbt, hhm, ht1, ht2, ht3, ht4, ht5,
    ht6, ht7, ht8, ht9, hwl⟩ := roundTrip_all_supported_types
  refine ⟨hi (-1234) [7] (by norm_num),
    hvec Nat _ write_nat0 read_nat0 hn [1, 300, 2] [] ⟨by decide, by decide⟩,
    hs [0x68, 0xC3, 0xA9] [9] ⟨by decide, by decide⟩,
    hbt Nat Bool _ _ write_nat0 read_nat0 writeBool readBool hn hb
      [(1, true), (2, false)] [] (by decide) (by decide) (by decide),
    hhm Nat Nat _ _ write_nat0 read_nat0 write_nat0 read_nat0 hn hn
      [(5, 6), (1, 2)] [] (by decide) (by decide) (by decide),
    hwl (Bool × Nat × Unit) _ _ _
      (sizeTuple2 sizeBool (sizeTuple2 size_nat0 sizeUnit))
      (ht3 Bool Nat Unit _ _ _ writeBool readBool write_nat0 read_nat0
        writeUnit readUnit hb hn hu)
      (true, 5, ()) [] ⟨⟨trivial, by decide, trivial⟩, by decide⟩⟩

/-- C2: Canonical unsigned width selection — the concrete boundary
outputs `0`, `127`, `128`, `65536`, and in general the narrowest
sufficient width (1, 3, 5 or 9 total bytes with the documented tags)
for every value. -/
theorem write_nat0_canonical_widths :
    write_nat0 0 = [0x00] ∧
    write_nat0 127 = [0x7F] ∧
    write_nat0 128 = [0xFE, 0x80, 0x00] ∧
    write_nat0 65536 = [0xFD, 0x00, 0x00, 0x01, 0x00] ∧
    (∀ n : Nat,
      (n ≤ 0x7F → write_nat0 n = [n]) ∧
      (0x80 ≤ n → n ≤ 0xFFFF →
        write_nat0 n = 0xFE :: leBytes 2 n ∧ (write_nat0 n).length = 3) ∧
      (0x10000 ≤ n → n ≤ 0xFFFFFFFF →
        write_nat0 n = 0xFD :: leBytes 4 n ∧ (write_nat0 n).length = 5) ∧
      (0x100000000 ≤ n →
        write_nat0 n = 0xFC :: leBytes 8 n ∧ (write_nat0 n).length = 9)) := by
  refine ⟨by decide, by decide, by decide, by decide, ?_⟩
  intro n
  refine ⟨fun h => by simp [write_nat0, h], fun h1 h2 => ?_, fun h1 h2 => ?_,
    fun h1 => ?_⟩
  · have e : write_nat0 n = 0xFE :: leBytes 2 n := by
      unfold write_nat0
      rw [if_neg (by omega), if_pos h2]
    exact ⟨e, by simp [e, leBytes_length]⟩
  · have e : write_nat0 n = 0xFD :: leBytes 4 n := by
      unfold write_nat0
      rw [if_neg (by omega), if_neg (by omega), if_pos h2]
    exact ⟨e, by simp [e, leBytes_length]⟩
  · have e : write_nat0 n = 0xFC :: leBytes 8 n := by
      unfold write_nat0
      rw [if_neg (by omega), if_neg (by omega), if_neg (by omega)]
    exact ⟨e, by simp [e, leBytes_length]⟩

/-- Closed instances of the C2 width selection, one per width. -/
theorem write_nat0_canonical_widths_witness :
    write_nat0 5 = [5] ∧
    (write_nat0 1000 = 0xFE :: leBytes 2 1000 ∧ (write_nat0 1000).length = 3) ∧
    (write_nat0 100000 = 0xFD :: leBytes 4 100000 ∧ (write_nat0 100000).length = 5) ∧
    (write_nat0 5000000000 = 0xFC :: leBytes 8 5000000000 ∧
      (write_nat0 5000000000).length = 9) := by
  have h := write_nat0_canonical_widths.2.2.2.2
  exact ⟨(h 5).1 (by decide), (h 1000).2.1 (by decide) (by decide),
    (h 100000).2.2.1 (by decide) (by decide), (h 5000000000).2.2.2 (by decide)⟩

theorem size_nat0_correct (n : Nat) : (write_nat0 n).length = size_nat0 n := by
  unfold write_nat0 size_nat0
  split_ifs <;> simp [leBytes_length]

theorem size_i64_correct (i : Int) : (write_i64 i).length = size_i64 i := by
  unfold write_i64 size_i64
  split_ifs <;> simp [leBytes_length]

theorem sz_string (bs : List Nat) : (writeString bs).length = sizeString bs := by
  simp [writeString, sizeString, size_nat0_correct]

theorem sz_option {α : Type} (P : α → Prop) (wr : α → List Nat) (sz : α → Nat)
    (h : SizeOk P wr sz) :
    SizeOk (fun v => ∀ x ∈ v, P x) (writeOption wr) (sizeOption sz) := by
  intro v hv
  cases v with
  | none => rfl
  | some x =>
    simp [writeOption, sizeOption, h x (hv x rfl)]
    omega

theorem sz_vec {α : Type} (P : α → Prop) (wr : α → List Nat) (sz : α → Nat)
    (h : SizeOk P wr sz) :
    SizeOk (fun l => ∀ x ∈ l, P x) (writeVec wr) (sizeVec sz) := by
  intro l hl
  simp only [writeVec, sizeVec, List.length_append, size_nat0_correct]
  congr 1
  rw [List.length_flatten, List.map_map]
  exact congrArg List.sum (List.map_congr_left (fun x hx => h x (hl x hx)))

theorem sz_entries (P : κ → Prop) (Q : ν → Prop)
    (wrK : κ → List Nat) (szK : κ → Nat) (wrV : ν → List Nat) (szV : ν → Nat)
    (hK : SizeOk P wrK szK) (hV : SizeOk Q wrV szV) :
    ∀ l : List (κ × ν), (∀ kv ∈ l, P kv.1 ∧ Q kv.2) →
      (writeEntries wrK wrV l).length = sizeEntries szK szV l := by
  intro l hl
  induction l with
  | nil => rfl
  | cons kv rest ih =>
    obtain ⟨k, v⟩ := kv
    rw [writeEntries_cons]
    simp [sizeEntries, hK k (hl (k, v) (by simp)).1, hV v (hl (k, v) (by simp)).2]
    have := ih (fun kv2 h2 => hl kv2 (by simp [h2]))
    simp [sizeEntries] at this
    omega

theorem sz_btreeMap (P : κ → Prop) (Q : ν → Prop)
    (wrK : κ → List Nat) (szK : κ → Nat) (wrV : ν → List Nat) (szV : ν → Nat)
    (hK : SizeOk P wrK szK) (hV : SizeOk Q wrV szV) :
    SizeOk (fun m => ∀ kv ∈ m, P kv.1 ∧ Q kv.2)
      (writeBTreeMap wrK wrV) (sizeMap szK szV) := by
  intro m hm
  simp [writeBTreeMap, sizeMap, size_nat0_correct,
    sz_entries P Q wrK szK wrV szV hK hV m hm]

theorem sz_hashMap (P : κ → Prop) (Q : ν → Prop)
    (wrK : κ → List Nat) (szK : κ → Nat) (wrV : ν → List Nat) (szV : ν → Nat)
    (hK : SizeOk P wrK szK) (hV : SizeOk Q wrV szV) :
    SizeOk (fun m => ∀ kv ∈ m, P kv.1 ∧ Q kv.2)
      (writeHashMap wrK wrV) (sizeMap szK szV) := by
  intro m hm
  simp [writeHashMap, sizeMap, size_nat0_correct,
    sz_entries P Q wrK szK wrV szV hK hV m hm]

theorem sz_tuple2 {α β : Type} (P : α → Prop) (Q : β → Prop)
    (w1 : α → List Nat) (s1 : α → Nat) (w2 : β → List Nat) (s2 : β → Nat)
    (h1 : SizeOk P w1 s1) (h2 : SizeOk Q w2 s2) :
    SizeOk (fun v => P v.1 ∧ Q v.2) (writeTuple2 w1 w2) (sizeTuple2 s1 s2) := by
  intro v hv
  obtain ⟨a, b⟩ := v
  simp [writeTuple2, sizeTuple2, h1 a hv.1, h2 b hv.2]

theorem sz_withLen {α : Type} (P : α → Prop) (wr : α → List Nat) (sz : α → Nat)
    (h : SizeOk P wr sz) : SizeOk P (writeWithLen sz wr) (sizeWithLen sz) := by
  intro v hv
  simp [writeWithLen, sizeWithLen, size_nat0_correct, h v hv]

/-- Modelled from the spec: `binprot_size` for the 3-tuple (nested). -/
def sizeTuple3 (s1 : α → Nat) (s2 : β → Nat) (s3 : γ → Nat) : α × β × γ → Nat :=
  sizeTuple2 s1 (sizeTuple2 s2 s3)

/-- Modelled from the spec: `binprot_size` for the 4-tuple (nested). -/
def sizeTuple4 (s1 : α1 → Nat) (s2 : α2 → Nat) (s3 : α3 → Nat) (s4 : α4 → Nat) :
    α1 × α2 × α3 × α4 → Nat :=
  sizeTuple2 s1 (sizeTuple3 s2 s3 s4)

/-- Modelled from the spec: `binprot_size` for the 5-tuple (nested). -/
def sizeTuple5 (s1 : α1 → Nat) (s2 : α2 → Nat) (s3 : α3 → Nat) (s4 : α4 → Nat)
    (s5 : α5 → Nat) : α1 × α2 × α3 × α4 × α5 → Nat :=
  sizeTuple2 s1 (sizeTuple4 s2 s3 s4 s5)

/-- Modelled from the spec: `binprot_size` for the 6-tuple (nested). -/
def sizeTuple6 (s1 : α1 → Nat) (s2 : α2 → Nat) (s3 : α3 → Nat) (s4 : α4 → Nat)
    (s5 : α5 → Nat) (s6 : α6 → Nat) : α1 × α2 × α3 × α4 × α5 × α6 → Nat :=
  sizeTuple2 s1 (sizeTuple5 s2 s3 s4 s5 s6)

/-- Modelled from the spec: `binprot_size` for the 7-tuple (nested). -/
def sizeTuple7 (s1 : α1 → Nat) (s2 : α2 → Nat) (s3 : α3 → Nat) (s4 : α4 → Nat)
    (s5 : α5 → Nat) (s6 : α6 → Nat) (s7 : α7 → Nat) :
    α1 × α2 × α3 × α4 × α5 × α6 × α7 → Nat :=
  sizeTuple2 s1 (sizeTuple6 s2 s3 s4 s5 s6 s7)

/-- Modelled from the spec: `binprot_size` for the 8-tuple (nested). -/
def sizeTuple8 (s1 : α1 → Nat) (s2 : α2 → Nat) (s3 : α3 → Nat) (s4 : α4 → Nat)
    (s5 : α5 → Nat) (s6 : α6 → Nat) (s7 : α7 → Nat) (s8 : α8 → Nat) :
    α1 × α2 × α3 × α4 × α5 × α6 × α7 × α8 → Nat :=
  sizeTuple2 s1 (sizeTuple7 s2 s3 s4 s5 s6 s7 s8)

/-- Modelled from the spec: `binprot_size` for the 9-tuple (nested). -/
def sizeTuple9 (s1 : α1 → Nat) (s2 : α2 → Nat) (s3 : α3 → Nat) (s4 : α4 → Nat)
    (s5 : α5 → Nat) (s6 : α6 → Nat) (s7 : α7 → Nat) (s8 : α8 → Nat) (s9 : α9 → Nat) :
    α1 × α2 × α3 × α4 × α5 × α6 × α7 × α8 × α9 → Nat :=
  sizeTuple2 s1 (sizeTuple8 s2 s3 s4 s5 s6 s7 s8 s9)

/-- C3: Size accounting — for every value of every supported type the
number of bytes the writer emits equals the computed size; the size
functions are arithmetic over the value and never invoke the writers. -/
theorem size_eq_write_length :
    SizeOk (fun _ : Unit => True) writeUnit sizeUnit ∧
    SizeOk (fun _ : Bool => True) writeBool sizeBool ∧
    SizeOk (fun _ : Nat => True) writeF64 sizeF64 ∧
    (∀ i : Int, (write_i64 i).length = size_i64 i) ∧
    (∀ n : Nat, (write_nat0 n).length = size_nat0 n) ∧
    (∀ bs : List Nat, (writeString bs).length = sizeString bs) ∧
    (∀ (α : Type) (P : α → Prop) (wr : α → List Nat) (sz : α → Nat), SizeOk P wr sz →
      SizeOk (fun v => ∀ x ∈ v, P x) (writeOption wr) (sizeOption sz)) ∧
    (∀ (α : Type) (P : α → Prop) (wr : α → List Nat) (sz : α → Nat), SizeOk P wr sz →
      SizeOk (fun l => ∀ x ∈ l, P x) (writeVec wr) (sizeVec sz)) ∧
    (∀ (κ ν : Type) (P : κ → Prop) (Q : ν → Prop) (wrK : κ → List Nat) (szK : κ → Nat)
        (wrV : ν → List Nat) (szV : ν → Nat), SizeOk P wrK szK → SizeOk Q wrV szV →
      SizeOk (fun m => ∀ kv ∈ m, P kv.1 ∧ Q kv.2)
        (writeBTreeMap wrK wrV) (sizeMap szK szV)) ∧
    (∀ (κ ν : Type) (P : κ → Prop) (Q : ν → Prop) (wrK : κ → List Nat) (szK : κ → Nat)
        (wrV : ν → List Nat) (szV : ν → Nat), SizeOk P wrK szK → SizeOk Q wrV szV →
      SizeOk (fun m => ∀ kv ∈ m, P kv.1 ∧ Q kv.2)
        (writeHashMap wrK wrV) (sizeMap szK szV)) ∧
    (∀ (α : Type) (P : α → Prop) (wr : α → List Nat) (sz : α → Nat), SizeOk P wr sz →
      SizeOk P (writeTuple1 wr) sz) ∧
    (∀ (α β : Type) (P1 : α → Prop) (P2 : β → Prop) (w1 : α → List Nat) (s1 : α → Nat)
        (w2 : β → List Nat) (s2 : β → Nat), SizeOk P1 w1 s1 → SizeOk P2 w2 s2 →
      SizeOk (fun v => P1 v.1 ∧ P2 v.2) (writeTuple2 w1 w2) (sizeTuple2 s1 s2)) ∧
    (∀ (α β γ : Type) (P1 : α → Prop) (P2 : β → Prop) (P3 : γ → Prop)
        (w1 : α → List Nat) (s1 : α → Nat) (w2 : β → List Nat) (s2 : β → Nat)
        (w3 : γ → List Nat) (s3 : γ → Nat),
      SizeOk P1 w1 s1 → SizeOk P2 w2 s2 → SizeOk P3 w3 s3 →
      SizeOk (fun v => P1 v.1 ∧ P2 v.2.1 ∧ P3 v.2.2)
        (writeTuple3 w1 w2 w3) (sizeTuple3 s1 s2 s3)) ∧
    (∀ (α1 α2 α3 α4 : Type) (P1 : α1 → Prop) (P2 : α2 → Prop) (P3 : α3 → Prop)
        (P4 : α4 → Prop) (w1 : α1 → List Nat) (s1 : α1 → Nat) (w2 : α2 → List Nat)
        (s2 : α2 → Nat) (w3 : α3 → List Nat) (s3 : α3 → Nat) (w4 : α4 → List Nat)
        (s4 : α4 → Nat),
      SizeOk P1 w1 s1 → SizeOk P2 w2 s2 → SizeOk P3 w3 s3 → SizeOk P4 w4 s4 →
      SizeOk (fun v => P1 v.1 ∧ P2 v.2.1 ∧ P3 v.2.2.1 ∧ P4 v.2.2.2)
        (writeTuple4 w1 w2 w3 w4) (sizeTuple4 s1 s2 s3 s4)) ∧
    (∀ (α1 α2 α3 α4 α5 : Type) (P1 : α1 → Prop) (P2 : α2 → Prop) (P3 : α3 → Prop)
        (P4 : α4 → Prop) (P5 : α5 → Prop) (w1 : α1 → List Nat) (s1 : α1 → Nat)
        (w2 : α2 → List Nat) (s2 : α2 → Nat) (w3 : α3 → List Nat) (s3 : α3 → Nat)
        (w4 : α4 → List Nat) (s4 : α4 → Nat) (w5 : α5 → List Nat) (s5 : α5 → Nat),
      SizeOk P1 w1 s1 → SizeOk P2 w2 s2 → SizeOk P3 w3 s3 → SizeOk P4 w4 s4 →
      SizeOk P5 w5 s5 →
      SizeOk (fun v => P1 v.1 ∧ P2 v.2.1 ∧ P3 v.2.2.1 ∧ P4 v.2.2.2.1 ∧ P5 v.2.2.2.2)
        (writeTuple5 w1 w2 w3 w4 w5) (sizeTuple5 s1 s2 s3 s4 s5)) ∧
    (∀ (α1 α2 α3 α4 α5 α6 : Type) (P1 : α1 → Prop) (P2 : α2 → Prop) (P3 : α3 → Prop)
        (P4 : α4 → Prop) (P5 : α5 → Prop) (P6 : α6 → Prop) (w1 : α1 → List Nat)
        (s1 : α1 → Nat) (w2 : α2 → List Nat) (s2 : α2 → Nat) (w3 : α3 → List Nat)
        (s3 : α3 → Nat) (w4 : α4 → List Nat) (s4 : α4 → Nat) (w5 : α5 → List Nat)
        (s5 : α5 → Nat) (w6 : α6 → List Nat) (s6 : α6 → Nat),
      SizeOk P1 w1 s1 → SizeOk P2 w2 s2 → SizeOk P3 w3 s3 → SizeOk P4 w4 s4 →
      SizeOk P5 w5 s5 → SizeOk P6 w6 s6 →
      SizeOk (fun v => P1 v.1 ∧ P2 v.2.1 ∧ P3 v.2.2.1 ∧ P4 v.2.2.2.1 ∧
          P5 v.2.2.2.2.1 ∧ P6 v.2.2.2.2.2)
        (writeTuple6 w1 w2 w3 w4 w5 w6) (sizeTuple6 s1 s2 s3 s4 s5 s6)) ∧
    (∀ (α1 α2 α3 α4 α5 α6 α7 : Type) (P1 : α1 → Prop) (P2 : α2 → Prop)
        (P3 : α3 → Prop) (P4 : α4 → Prop) (P5 : α5 → Prop) (P6 : α6 → Prop)
        (P7 : α7 → Prop) (w1 : α1 → List Nat) (s1 : α1 → Nat) (w2 : α2 → List Nat)
        (s2 : α2 → Nat) (w3 : α3 → List Nat) (s3 : α3 → Nat) (w4 : α4 → List Nat)
        (s4 : α4 → Nat) (w5 : α5 → List Nat) (s5 : α5 → Nat) (w6 : α6 → List Nat)
        (s6 : α6 → Nat) (w7 : α7 → List Nat) (s7 : α7 → Nat),
      SizeOk P1 w1 s1 → SizeOk P2 w2 s2 → SizeOk P3 w3 s3 → SizeOk P4 w4 s4 →
      SizeOk P5 w5 s5 → SizeOk P6 w6 s6 → SizeOk P7 w7 s7 →
      SizeOk (fun v => P1 v.1 ∧ P2 v.2.1 ∧ P3 v.2.2.1 ∧ P4 v.2.2.2.1 ∧
          P5 v.2.2.2.2.1 ∧ P6 v.2.2.2.2.2.1 ∧ P7 v.2.2.2.2.2.2)
        (writeTuple7 w1 w2 w3 w4 w5 w6 w7) (sizeTuple7 s1 s2 s3 s4 s5 s6 s7)) ∧
    (∀ (α1 α2 α3 α4 α5 α6 α7 α8 : Type) (P1 : α1 → Prop) (P2 : α2 → Prop)
        (P3 : α3 → Prop) (P4 : α4 → Prop) (P5 : α5 → Prop) (P6 : α6 → Prop)
        (P7 : α7 → Prop) (P8 : α8 → Prop) (w1 : α1 → List Nat) (s1 : α1 → Nat)
        (w2 : α2 → List Nat) (s2 : α2 → Nat) (w3 : α3 → List Nat) (s3 : α3 → Nat)
        (w4 : α4 → List Nat) (s4 : α4 → Nat) (w5 : α5 → List Nat) (s5 : α5 → Nat)
        (w6 : α6 → List Nat) (s6 : α6 → Nat) (w7 : α7 → List Nat) (s7 : α7 → Nat)
        (w8 : α8 → List Nat) (s8 : α8 → Nat),
      SizeOk P1 w1 s1 → SizeOk P2 w2 s2 → SizeOk P3 w3 s3 → SizeOk P4 w4 s4 →
      SizeOk P5 w5 s5 → SizeOk P6 w6 s6 → SizeOk P7 w7 s7 → SizeOk P8 w8 s8 →
      SizeOk (fun v => P1 v.1 ∧ P2 v.2.1 ∧ P3 v.2.2.1 ∧ P4 v.2.2.2.1 ∧
          P5 v.2.2.2.2.1 ∧ P6 v.2.2.2.2.2.1 ∧ P7 v.2.2.2.2.2.2.1 ∧ P8 v.2.2.2.2.2.2.2)
        (writeTuple8 w1 w2 w3 w4 w5 w6 w7 w8) (sizeTuple8 s1 s2 s3 s4 s5 s6 s7 s8)) ∧
    (∀ (α1 α2 α3 α4 α5 α6 α7 α8 α9 : Type) (P1 : α1 → Prop) (P2 : α2 → Prop)
        (P3 : α3 → Prop) (P4 : α4 → Prop) (P5 : α5 → Prop) (P6 : α6 → Prop)
        (P7 : α7 → Prop) (P8 : α8 → Prop) (P9 : α9 → Prop) (w1 : α1 → List Nat)
        (s1 : α1 → Nat) (w2 : α2 → List Nat) (s2 : α2 → Nat) (w3 : α3 → List Nat)
        (s3 : α3 → Nat) (w4 : α4 → List Nat) (s4 : α4 → Nat) (w5 : α5 → List Nat)
        (s5 : α5 → Nat) (w6 : α6 → List Nat) (s6 : α6 → Nat) (w7 : α7 → List Nat)
        (s7 : α7 → Nat) (w8 : α8 → List Nat) (s8 : α8 → Nat) (w9 : α9 → List Nat)
        (s9 : α9 → Nat),
      SizeOk P1 w1 s1 → SizeOk P2 w2 s2 → SizeOk P3 w3 s3 → SizeOk P4 w4 s4 →
      SizeOk P5 w5 s5 → SizeOk P6 w6 s6 → SizeOk P7 w7 s7 → SizeOk P8 w8 s8 →
      SizeOk P9 w9 s9 →
      SizeOk (fun v => P1 v.1 ∧ P2 v.2.1 ∧ P3 v.2.2.1 ∧ P4 v.2.2.2.1 ∧
          P5 v.2.2.2.2.1 ∧ P6 v.2.2.2.2.2.1 ∧ P7 v.2.2.2.2.2.2.1 ∧
          P8 v.2.2.2.2.2.2.2.1 ∧ P9 v.2.2.2.2.2.2.2.2)
        (writeTuple9 w1 w2 w3 w4 w5 w6 w7 w8 w9)
        (sizeTuple9 s1 s2 s3 s4 s5 s6 s7 s8 s9)) ∧
    (∀ (α : Type) (P : α → Prop) (wr : α → List Nat) (sz : α → Nat), SizeOk P wr sz →
      SizeOk P (writeWithLen sz wr) (sizeWithLen sz)) := by
  refine ⟨fun v _ => rfl, fun v _ => rfl,
    fun v _ => by simp [writeF64, sizeF64, leBytes_length],
    size_i64_correct, size_nat0_correct, sz_string,
    fun α P wr sz h => sz_option P wr sz h,
    fun α P wr sz h => sz_vec P wr sz h,
    fun κ ν P Q wrK szK wrV szV hK hV => sz_btreeMap P Q wrK szK wrV szV hK hV,
    fun κ ν P Q wrK szK wrV szV hK hV => sz_hashMap P Q wrK szK wrV szV hK hV,
    fun α P wr sz h => h,
    fun α β P1 P2 w1 s1 w2 s2 h1 h2 => sz_tuple2 P1 P2 w1 s1 w2 s2 h1 h2,
    ?_, ?_, ?_, ?_, ?_, ?_, ?_,
    fun α P wr sz h => sz_withLen P wr sz h⟩
  · intro α β γ P1 P2 P3 w1 s1 w2 s2 w3 s3 h1 h2 h3
    exact sz_tuple2 _ _ _ _ _ _ h1 (sz_tuple2 _ _ _ _ _ _ h2 h3)
  · intro α1 α2 α3 α4 P1 P2 P3 P4 w1 s1 w2 s2 w3 s3 w4 s4 h1 h2 h3 h4
    exact sz_tuple2 _ _ _ _ _ _ h1
      (sz_tuple2 _ _ _ _ _ _ h2 (sz_tuple2 _ _ _ _ _ _ h3 h4))
  · intro α1 α2 α3 α4 α5 P1 P2 P3 P4 P5 w1 s1 w2 s2 w3 s3 w4 s4 w5 s5 h1 h2 h3 h4 h5
    exact sz_tuple2 _ _ _ _ _ _ h1 (sz_tuple2 _ _ _ _ _ _ h2
      (sz_tuple2 _ _ _ _ _ _ h3 (sz_tuple2 _ _ _ _ _ _ h4 h5)))
  · intro α1 α2 α3 α4 α5 α6 P1 P2 P3 P4 P5 P6 w1 s1 w2 s2 w3 s3 w4 s4 w5 s5 w6 s6
      h1 h2 h3 h4 h5 h6
    exact sz_tuple2 _ _ _ _ _ _ h1 (sz_tuple2 _ _ _ _ _ _ h2
      (sz_tuple2 _ _ _ _ _ _ h3 (sz_tuple2 _ _ _ _ _ _ h4
        (sz_tuple2 _ _ _ _ _ _ h5 h6))))
  · intro α1 α2 α3 α4 α5 α6 α7 P1 P2 P3 P4 P5 P6 P7 w1 s1 w2 s2 w3 s3 w4 s4 w5 s5
      w6 s6 w7 s7 h1 h2 h3 h4 h5 h6 h7
    exact sz_tuple2 _ _ _ _ _ _ h1 (sz_tuple2 _ _ _ _ _ _ h2
      (sz_tuple2 _ _ _ _ _ _ h3 (sz_tuple2 _ _ _ _ _ _ h4
        (sz_tuple2 _ _ _ _ _ _ h5 (sz_tuple2 _ _ _ _ _ _ h6 h7)))))
  · intro α1 α2 α3 α4 α5 α6 α7 α8 P1 P2 P3 P4 P5 P6 P7 P8 w1 s1 w2 s2 w3 s3 w4 s4
      w5 s5 w6 s6 w7 s7 w8 s8 h1 h2 h3 h4 h5 h6 h7 h8
    exact sz_tuple2 _ _ _ _ _ _ h1 (sz_tuple2 _ _ _ _ _ _ h2
      (sz_tuple2 _ _ _ _ _ _ h3 (sz_tuple2 _ _ _ _ _ _ h4
        (sz_tuple2 _ _ _ _ _ _ h5 (sz_tuple2 _ _ _ _ _ _ h6
          (sz_tuple2 _ _ _ _ _ _ h7 h8))))))
  · intro α1 α2 α3 α4 α5 α6 α7 α8 α9 P1 P2 P3 P4 P5 P6 P7 P8 P9 w1 s1 w2 s2 w3 s3
      w4 s4 w5 s5 w6 s6 w7 s7 w8 s8 w9 s9 h1 h2 h3 h4 h5 h6 h7 h8 h9
    exact sz_tuple2 _ _ _ _ _ _ h1 (sz_tuple2 _ _ _ _ _ _ h2
      (sz_tuple2 _ _ _ _ _ _ h3 (sz_tuple2 _ _ _ _ _ _ h4
        (sz_tuple2 _ _ _ _ _ _ h5 (sz_tuple2 _ _ _ _ _ _ h6
          (sz_tuple2 _ _ _ _ _ _ h7 (sz_tuple2 _ _ _ _ _ _ h8 h9)))))))

/-- Closed instances of the C3 size accounting at concrete values. -/
theorem size_eq_write_length_witness :
    (writeVec write_nat0 [1, 300, 70000]).length = sizeVec size_nat0 [1, 300, 70000] ∧
    (writeBTreeMap write_nat0 writeBool [(1, true), (300, false)]).length =
      sizeMap size_nat0 sizeBool [(1, true), (300, false)] ∧
    (writeWithLen (sizeTuple2 size_nat0 sizeBool) (writeTuple2 write_nat0 writeBool)
        (300, true)).length =
      sizeWithLen (sizeTuple2 size_nat0 sizeBool) (300, true) := by
  obtain ⟨hu, hb, hf, hi, hn, hs, hopt, hvec, hbt, hhm, ht1, ht2, ht3, ht4, ht5,
    ht6, ht7, ht8, ht9, hwl⟩ := size_eq_write_length
  have hszn : SizeOk (fun _ : Nat => True) write_nat0 size_nat0 := fun n _ => hn n
  exact ⟨hvec Nat _ write_nat0 size_nat0 hszn [1, 300, 70000] (by simp),
    hbt Nat Bool _ _ write_nat0 size_nat0 writeBool sizeBool hszn hb
      [(1, true), (300, false)] (by simp),
    hwl (Nat × Bool) _ (writeTuple2 write_nat0 writeBool) (sizeTuple2 size_nat0 sizeBool)
      (ht2 Nat Bool _ _ write_nat0 size_nat0 writeBool sizeBool hszn hb)
      (300, true) ⟨trivial, trivial⟩⟩

theorem btInsert_flag_not_mem [LinearOrder κ] (k : κ) (v : ν) :
    ∀ res : List (κ × ν), k ∉ res.map Prod.fst → (btInsert k v res).2 = false := by
  intro res
  induction res with
  | nil => intro _; rfl
  | cons kv rest ih =>
    obtain ⟨k1, v1⟩ := kv
    intro hk
    have hne : k ≠ k1 := by simp at hk; exact hk.1
    by_cases hlt : k < k1
    · simp [btInsert, hlt]
    · rcases hbt : btInsert k v rest with ⟨r, b⟩
      have hb := ih (fun hmem => hk (List.mem_cons_of_mem k1 hmem))
      rw [hbt] at hb
      simp [btInsert, hlt, hne, hbt, hb]

theorem btInsert_keys_perm [LinearOrder κ] (k : κ) (v : ν) :
    ∀ res : List (κ × ν), k ∉ res.map Prod.fst →
      ((btInsert k v res).1.map Prod.fst).Perm (k :: res.map Prod.fst) := by
  intro res
  induction res with
  | nil => intro _; simp [btInsert]
  | cons kv rest ih =>
    obtain ⟨k1, v1⟩ := kv
    intro hk
    have hne : k ≠ k1 := by simp at hk; exact hk.1
    by_cases hlt : k < k1
    · simp [btInsert, hlt]
    · rcases hbt : btInsert k v rest with ⟨r, b⟩
      have hper := ih (fun hmem => hk (List.mem_cons_of_mem k1 hmem))
      rw [hbt] at hper
      simp only [btInsert, if_neg hlt, if_neg hne, hbt, List.map_cons]
      exact (hper.cons k1).trans (List.Perm.swap k k1 (rest.map Prod.fst))

theorem btInsert_flag_mem [LinearOrder κ] (k : κ) (v : ν) :
    ∀ res : List (κ × ν), List.Pairwise (fun a b : κ × ν => a.1 < b.1) res →
      k ∈ res.map Prod.fst → (btInsert k v res).2 = true := by
  intro res
  induction res with
  | nil => intro _ h; simp at h
  | cons kv rest ih =>
    obtain ⟨k1, v1⟩ := kv
    intro hsort hk
    by_cases heq : k = k1
    · subst heq
      simp [btInsert]
    · have hmem : k ∈ rest.map Prod.fst := by
        simp at hk
        rcases hk with hk | hk
        · exact absurd hk heq
        · simpa using hk
      by_cases hlt : k < k1
      · exfalso
        obtain ⟨kv2, hkv2, hfst⟩ := List.mem_map.mp hmem
        have h2 : k1 < kv2.1 := (List.pairwise_cons.mp hsort).1 kv2 hkv2
        rw [hfst] at h2
        exact lt_asymm hlt h2
      · rcases hbt : btInsert k v rest with ⟨r, b⟩
        have hb := ih (List.pairwise_cons.mp hsort).2 hmem
        rw [hbt] at hb
        simp [btInsert, hlt, heq, hbt, hb]

theorem btInsert_sorted [LinearOrder κ] (k : κ) (v : ν) :
    ∀ res : List (κ × ν), List.Pairwise (fun a b : κ × ν => a.1 < b.1) res →
      k ∉ res.map Prod.fst →
      List.Pairwise (fun a b : κ × ν => a.1 < b.1) (btInsert k v res).1 := by
  intro res
  induction res with
  | nil => intro _ _; simp [btInsert]
  | cons kv rest ih =>
    obtain ⟨k1, v1⟩ := kv
    intro hsort hk
    have hne : k ≠ k1 := by simp at hk; exact hk.1
    by_cases hlt : k < k1
    · simp only [btInsert, if_pos hlt]
      refine List.pairwise_cons.mpr ⟨?_, hsort⟩
      intro kv2 h2
      rcases List.mem_cons.mp h2 with h2 | h2
      · rw [h2]
        exact hlt
      · exact lt_trans hlt ((List.pairwise_cons.mp hsort).1 kv2 h2)
    · rcases hbt : btInsert k v rest with ⟨r, b⟩
      simp only [btInsert, if_neg hlt, if_neg hne, hbt]
      have hper := btInsert_keys_perm k v rest (fun hmem => hk (List.mem_cons_of_mem k1 hmem))
      rw [hbt] at hper
      refine List.pairwise_cons.mpr ⟨?_, ?_⟩
      · intro kv2 h2
        have hmem : kv2.1 ∈ r.map Prod.fst := List.mem_map_of_mem _ h2
        rcases List.mem_cons.mp (hper.mem_iff.mp hmem) with h3 | h3
        · rw [h3]
          exact lt_of_le_of_ne (le_of_not_lt hlt) (Ne.symm hne)
        · obtain ⟨kv3, h4, h5⟩ := List.mem_map.mp h3
          rw [← h5]
          exact (List.pairwise_cons.mp hsort).1 kv3 h4
      · have := ih (List.pairwise_cons.mp hsort).2 (fun hmem => hk (List.mem_cons_of_mem k1 hmem))
        rw [hbt] at this
        exact this

theorem readBTreeMapAux_dup [LinearOrder κ] (P : κ → Prop) (Q : ν → Prop)
    (wrK : κ → List Nat) (rdK : Reader κ) (wrV : ν → List Nat) (rdV : Reader ν)
    (hK : RT P wrK rdK) (hV : RT Q wrV rdV) :
    ∀ (l res : List (κ × ν)) (s : List Nat),
      (∀ kv ∈ l, P kv.1 ∧ Q kv.2) →
      List.Pairwise (fun a b : κ × ν => a.1 < b.1) res →
      ¬ (res.map Prod.fst ++ l.map Prod.fst).Nodup →
      readBTreeMapAux rdK rdV l.length res (writeEntries wrK wrV l ++ s) =
        .error .sameKeyAppearsTwiceInMap := by
  intro l
  induction l with
  | nil =>
    intro res s _ hsort hnd
    exfalso
    apply hnd
    have : (res.map Prod.fst).Nodup :=
      List.Pairwise.imp (fun hab => ne_of_lt hab) (List.pairwise_map.mpr hsort)
    simpa using this
  | cons kv rest ih =>
    obtain ⟨k, v⟩ := kv
    intro res s hPQ hsort hnd
    simp only [List.map_cons] at hnd
    rw [writeEntries_cons, List.length_cons, List.append_assoc, List.append_assoc]
    by_cases hk : k ∈ res.map Prod.fst
    · have hflag := btInsert_flag_mem k v res hsort hk
      rcases hbt : btInsert k v res with ⟨r, b⟩
      rw [hbt] at hflag
      subst hflag
      simp [readBTreeMapAux, hK k _ (hPQ (k, v) (by simp)).1,
        hV v _ (hPQ (k, v) (by simp)).2, hbt]
    · have hflag := btInsert_flag_not_mem k v res hk
      have hper := btInsert_keys_perm k v res hk
      have hsort1 := btInsert_sorted k v res hsort hk
      have hperm1 : (res.map Prod.fst ++ k :: rest.map Prod.fst).Perm
          ((btInsert k v res).1.map Prod.fst ++ rest.map Prod.fst) :=
        List.perm_middle.trans (hper.append_right (rest.map Prod.fst)).symm
      have hnd1 : ¬ ((btInsert k v res).1.map Prod.fst ++ rest.map Prod.fst).Nodup := by
        intro h
        exact hnd (hperm1.nodup_iff.mpr h)
      rcases hbt : btInsert k v res with ⟨r, b⟩
      rw [hbt] at hflag hsort1 hnd1
      subst hflag
      simp [readBTreeMapAux, hK k _ (hPQ (k, v) (by simp)).1,
        hV v _ (hPQ (k, v) (by simp)).2, hbt,
        ih r s (fun kv2 h2 => hPQ kv2 (by simp [h2])) hsort1 hnd1]

theorem readHashMapAux_dup [DecidableEq κ] (P : κ → Prop) (Q : ν → Prop)
    (wrK : κ → List Nat) (rdK : Reader κ) (wrV : ν → List Nat) (rdV : Reader ν)
    (hK : RT P wrK rdK) (hV : RT Q wrV rdV) :
    ∀ (l res : List (κ × ν)) (s : List Nat),
      (∀ kv ∈ l, P kv.1 ∧ Q kv.2) →
      (res.map Prod.fst).Nodup →
      ¬ (res.map Prod.fst ++ l.map Prod.fst).Nodup →
      readHashMapAux rdK rdV l.length res (writeEntries wrK wrV l ++ s) =
        .error .sameKeyAppearsTwiceInMap := by
  intro l
  induction l with
  | nil =>
    intro res s _ hndres hnd
    exfalso
    apply hnd
    simpa using hndres
  | cons kv rest ih =>
    obtain ⟨k, v⟩ := kv
    intro res s hPQ hndres hnd
    simp only [List.map_cons] at hnd
    rw [writeEntries_cons, List.length_cons, List.append_assoc, List.append_assoc]
    by_cases hk : k ∈ res.map Prod.fst
    · simp [readHashMapAux, hK k _ (hPQ (k, v) (by simp)).1,
        hV v _ (hPQ (k, v) (by simp)).2, hmInsert, hk]
    · have hnd1 : ((res ++ [(k, v)]).map Prod.fst).Nodup := by
        rw [List.map_append]
        refine List.Nodup.append hndres (by simp) ?_
        intro a ha hb
        simp at hb
        subst hb
        exact hk ha
      have hnd2 : ¬ ((res ++ [(k, v)]).map Prod.fst ++ rest.map Prod.fst).Nodup := by
        intro h
        apply hnd
        simpa using h
      simp [readHashMapAux, hK k _ (hPQ (k, v) (by simp)).1,
        hV v _ (hPQ (k, v) (by simp)).2, hmInsert, hk,
        ih (res ++ [(k, v)]) s (fun kv2 h2 => hPQ kv2 (by simp [h2])) hnd1 hnd2]

/-- C4: Duplicate-key rejection — for both map decoders, a stream whose
encoded entry sequence repeats a key (in any position) fails with the
duplicate-key error; the later entry never overwrites the earlier one
in a returned map. -/
theorem map_read_rejects_duplicate_keys :
    (∀ (κ ν : Type) [LinearOrder κ] (P : κ → Prop) (Q : ν → Prop)
        (wrK : κ → List Nat) (rdK : Reader κ) (wrV : ν → List Nat) (rdV : Reader ν),
      RT P wrK rdK → RT Q wrV rdV →
      ∀ (l : List (κ × ν)) (s : List Nat),
        (∀ kv ∈ l, P kv.1 ∧ Q kv.2) → l.length < 2 ^ 64 →
        ¬ (l.map Prod.fst).Nodup →
        readBTreeMap rdK rdV
            (write_nat0 l.length ++ (writeEntries wrK wrV l ++ s)) =
          .error .sameKeyAppearsTwiceInMap) ∧
    (∀ (κ ν : Type) [DecidableEq κ] (P : κ → Prop) (Q : ν → Prop)
        (wrK : κ → List Nat) (rdK : Reader κ) (wrV : ν → List Nat) (rdV : Reader ν),
      RT P wrK rdK → RT Q wrV rdV →
      ∀ (l : List (κ × ν)) (s : List Nat),
        (∀ kv ∈ l, P kv.1 ∧ Q kv.2) → l.length < 2 ^ 64 →
        ¬ (l.map Prod.fst).Nodup →
        readHashMap rdK rdV
            (write_nat0 l.length ++ (writeEntries wrK wrV l ++ s)) =
          .error .sameKeyAppearsTwiceInMap) := by
  constructor
  · intro κ ν inst P Q wrK rdK wrV rdV hK hV l s hPQ hlen hnd
    unfold readBTreeMap
    rw [rt_nat0 _ _ hlen]
    exact readBTreeMapAux_dup P Q wrK rdK wrV rdV hK hV l [] s hPQ (by simp)
      (by simpa using hnd)
  · intro κ ν inst P Q wrK rdK wrV rdV hK hV l s hPQ hlen hnd
    unfold readHashMap
    rw [rt_nat0 _ _ hlen]
    exact readHashMapAux_dup P Q wrK rdK wrV rdV hK hV l [] s hPQ (by simp)
      (by simpa using hnd)

/-- Closed instance of C4: count=2 with two identical keys fails for
both map decoders. -/
theorem map_read_rejects_duplicate_keys_witness :
    readBTreeMap read_nat0 read_nat0
      (write_nat0 2 ++ (writeEntries write_nat0 write_nat0 [(1, 10), (1, 20)] ++ [])) =
      .error .sameKeyAppearsTwiceInMap ∧
    readHashMap read_nat0 read_nat0
      (write_nat0 2 ++ (writeEntries write_nat0 write_nat0 [(1, 10), (1, 20)] ++ [])) =
      .error .sameKeyAppearsTwiceInMap := by
  have hn : RT (fun n : Nat => n < 2 ^ 64) write_nat0 read_nat0 :=
    fun n s h => rt_nat0 n s h
  obtain ⟨hbt, hhm⟩ := map_read_rejects_duplicate_keys
  exact ⟨hbt Nat Nat _ _ write_nat0 read_nat0 write_nat0 read_nat0 hn hn
      [(1, 10), (1, 20)] [] (by decide) (by decide) (by decide),
    hhm Nat Nat _ _ write_nat0 read_nat0 write_nat0 read_nat0 hn hn
      [(1, 10), (1, 20)] [] (by decide) (by decide) (by decide)⟩

/-- C5: Invalid-discriminant rejection — decoding unit from a first
byte other than 0x00 fails with the invalid-unit error carrying that
byte; bool from a byte other than 0x00/0x01 fails with the invalid-bool
error; option from a byte other than 0x00/0x01 fails with the
invalid-option error.  The claim's concrete bytes 0x02 and 0x05 are
instances. -/
theorem invalid_discriminant_errors :
    (∀ (b : Nat) (s : List Nat), b ≠ 0 →
      readUnit (b :: s) = .error (.unexpectedValueForUnit b)) ∧
    (∀ (b : Nat) (s : List Nat), b ≠ 0 → b ≠ 1 →
      readBool (b :: s) = .error (.unexpectedValueForBool b)) ∧
    (∀ (α : Type) (rd : Reader α) (b : Nat) (s : List Nat), b ≠ 0 → b ≠ 1 →
      readOption rd (b :: s) = .error (.unexpectedValueForOption b)) := by
  refine ⟨fun b s h => ?_, fun b s h0 h1 => ?_, fun α rd b s h0 h1 => ?_⟩
  · simp [readUnit, h]
  · simp [readBool, h0, h1]
  · simp [readOption, h0, h1]

/-- Closed instances of C5 at the claim's concrete bytes. -/
theorem invalid_discriminant_errors_witness :
    readUnit [2] = .error (.unexpectedValueForUnit 2) ∧
    readBool [2] = .error (.unexpectedValueForBool 2) ∧
    readOption read_nat0 [5] = .error (.unexpectedValueForOption 5) := by
  obtain ⟨hu, hb, ho⟩ := invalid_discriminant_errors
  exact ⟨hu 2 [] (by decide), hb 2 [] (by decide) (by decide),
    ho Nat read_nat0 5 [] (by decide) (by decide)⟩

/-- C6: UTF-8 validation — a string decode whose nat0-prefixed payload
is not valid UTF-8 fails with the text-encoding error, and a valid
payload is returned exactly as decoded; never a lossy result. -/
theorem readString_validates_utf8 :
    ∀ (bs s : List Nat), bs.length < 2 ^ 64 →
      readString (write_nat0 bs.length ++ (bs ++ s)) =
        if validUtf8 bs then .ok (bs, s) else .error .utf8Error := by
  intro bs s h
  have h2 := readString_write bs s h
  simpa [writeString, List.append_assoc] using h2

/-- Closed instances of C6: an invalid payload errors and a valid one
is returned exactly. -/
theorem readString_validates_utf8_witness :
    readString (write_nat0 [0xFF].length ++ ([0xFF] ++ [])) = .error .utf8Error ∧
    readString (write_nat0 [0xC3, 0xA9].length ++ ([0xC3, 0xA9] ++ [7])) =
      .ok ([0xC3, 0xA9], [7]) := by
  refine ⟨?_, ?_⟩
  · rw [readString_validates_utf8 [0xFF] [] (by decide), if_neg (by decide)]
  · rw [readString_validates_utf8 [0xC3, 0xA9] [7] (by decide), if_pos (by decide)]

/-- C7: Framing integrity — with a size function returning the exact
encoded length N, the fixed framing writes exactly 8+N bytes whose
8-byte little-endian head decodes back to N, and the length-wrapped
form writes exactly (nat0-encoded-length-of-N) + N bytes whose nat0
head decodes back to N. -/
theorem framing_writes_exact_lengths :
    ∀ (α : Type) (sz : α → Nat) (wr : α → List Nat) (v : α),
      sz v = (wr v).length → (wr v).length < 2 ^ 63 →
      (binprot_write_with_size sz wr v).length = 8 + (wr v).length ∧
      read_i64_le (binprot_write_with_size sz wr v) =
        .ok (((wr v).length : Int), wr v) ∧
      (writeWithLen sz wr v).length =
        (write_nat0 (wr v).length).length + (wr v).length ∧
      read_nat0 (writeWithLen sz wr v) = .ok ((wr v).length, wr v) := by
  intro α sz wr v hsz hlt
  have p63 : (2 : Nat) ^ 63 = 9223372036854775808 := by norm_num
  have p64 : (2 : Nat) ^ 64 = 18446744073709551616 := by norm_num
  refine ⟨by simp [binprot_write_with_size, leBytes_length], ?_, ?_, ?_⟩
  · have hv : leVal (leBytes 8 (sz v)) = sz v := by
      refine leVal_leBytes 8 _ ?_
      have : (2 : Nat) ^ (8 * 8) = 18446744073709551616 := by norm_num
      omega
    have hts : toSigned 8 (sz v) = ((wr v).length : Int) := by
      unfold toSigned
      rw [if_pos]
      · exact_mod_cast hsz
      · have : (2 : Nat) ^ (8 * 8 - 1) = 9223372036854775808 := by norm_num
        omega
    simp [binprot_write_with_size, read_i64_le, takeBytes_leBytes, hv, hts]
  · simp [writeWithLen, hsz]
  · unfold writeWithLen
    rw [hsz]
    exact rt_nat0 _ _ (by omega)

/-- Closed instance of C7 at a concrete nat0 payload. -/
theorem framing_writes_exact_lengths_witness :
    (binprot_write_with_size size_nat0 write_nat0 300).length =
      8 + (write_nat0 300).length ∧
    read_i64_le (binprot_write_with_size size_nat0 write_nat0 300) =
      .ok (((write_nat0 300).length : Int), write_nat0 300) ∧
    (writeWithLen size_nat0 write_nat0 300).length =
      (write_nat0 (write_nat0 300).length).length + (write_nat0 300).length ∧
    read_nat0 (writeWithLen size_nat0 write_nat0 300) =
      .ok ((write_nat0 300).length, write_nat0 300) :=
  framing_writes_exact_lengths Nat size_nat0 write_nat0 300 (by decide) (by decide)

theorem read_nat0_skips_write (a : Nat) (s : List Nat) :
    ∃ m, read_nat0 (write_nat0 a ++ s) = .ok (m, s) := by
  unfold write_nat0
  split_ifs with h1 h2 h3
  · exact ⟨a, by simp [read_nat0, show a ≠ 0xFC by omega, show a ≠ 0xFD by omega,
      show a ≠ 0xFE by omega, show a ≠ 0xFF by omega, h1]⟩
  · exact ⟨leVal (leBytes 2 a), by simp [read_nat0, takeBytes_leBytes]⟩
  · exact ⟨leVal (leBytes 4 a), by simp [read_nat0, takeBytes_leBytes]⟩
  · exact ⟨leVal (leBytes 8 a), by simp [read_nat0, takeBytes_leBytes]⟩

theorem readWithLen_write_nat0 {α : Type} (rd : Reader α) (a : Nat) (s : List Nat) :
    readWithLen rd (write_nat0 a ++ s) = rd s := by
  obtain ⟨m, hm⟩ := read_nat0_skips_write a s
  simp [readWithLen, hm]

theorem read_with_size_skips {α : Type} (rd : Reader α) (a : Nat) (s : List Nat) :
    binprot_read_with_size rd (leBytes 8 a ++ s) = rd s := by
  simp [binprot_read_with_size, takeBytes_leBytes]

/-- C8: Lenient length-prefix decoding — both framing readers read the
length prefix, ignore its value, and decode the payload by ordinary
recursive decoding; the result equals decoding the payload directly
and is identical for any two streams differing only in the value of
the length prefix. -/
theorem framing_readers_ignore_declared_length :
    ∀ (α : Type) (rd : Reader α) (a b : Nat) (s : List Nat),
      binprot_read_with_size rd (leBytes 8 a ++ s) = rd s ∧
      readWithLen rd (write_nat0 a ++ s) = rd s ∧
      binprot_read_with_size rd (leBytes 8 a ++ s) =
        binprot_read_with_size rd (leBytes 8 b ++ s) ∧
      readWithLen rd (write_nat0 a ++ s) = readWithLen rd (write_nat0 b ++ s) := by
  intro α rd a b s
  refine ⟨read_with_size_skips rd a s, readWithLen_write_nat0 rd a s, ?_, ?_⟩
  · rw [read_with_size_skips rd a s, read_with_size_skips rd b s]
  · rw [readWithLen_write_nat0 rd a s, readWithLen_write_nat0 rd b s]

/-- C9: Integer decode algorithm — for both integer decoders a first
byte up to 0x7F is itself the value; the tag bytes 0xFF/0xFE/0xFD/0xFC
select 1/2/4/8-byte little-endian fields, zero-extended for the
unsigned form and sign-extended for the signed form; any first byte in
0x80-0xFB is the fatal malformed-tag decode error. -/
theorem int_decode_algorithm :
    (∀ (c : Nat) (s : List Nat), c ≤ 0x7F →
      read_nat0 (c :: s) = .ok (c, s) ∧ read_signed (c :: s) = .ok ((c : Int), s)) ∧
    (∀ (c : Nat) (s : List Nat), 0x7F < c → c < 0xFC →
      read_nat0 (c :: s) = .error .malformedIntegerTag ∧
      read_signed (c :: s) = .error .malformedIntegerTag) ∧
    (∀ (bs s : List Nat), bs.length = 1 →
      read_nat0 (0xFF :: (bs ++ s)) = .ok (leVal bs, s) ∧
      read_signed (0xFF :: (bs ++ s)) = .ok (toSigned 1 (leVal bs), s)) ∧
    (∀ (bs s : List Nat), bs.length = 2 →
      read_nat0 (0xFE :: (bs ++ s)) = .ok (leVal bs, s) ∧
      read_signed (0xFE :: (bs ++ s)) = .ok (toSigned 2 (leVal bs), s)) ∧
    (∀ (bs s : List Nat), bs.length = 4 →
      read_nat0 (0xFD :: (bs ++ s)) = .ok (leVal bs, s) ∧
      read_signed (0xFD :: (bs ++ s)) = .ok (toSigned 4 (leVal bs), s)) ∧
    (∀ (bs s : List Nat), bs.length = 8 →
      read_nat0 (0xFC :: (bs ++ s)) = .ok (leVal bs, s) ∧
      read_signed (0xFC :: (bs ++ s)) = .ok (toSigned 8 (leVal bs), s)) := by
  have htake : ∀ (k : Nat) (bs s : List Nat), bs.length = k →
      takeBytes k (bs ++ s) = some (bs, s) := by
    intro k bs s h
    rw [← h]
    exact takeBytes_append bs s
  refine ⟨fun c s h => ?_, fun c s h1 h2 => ?_, fun bs s h => ?_, fun bs s h => ?_,
    fun bs s h => ?_, fun bs s h => ?_⟩
  · constructor <;>
      simp [read_nat0, read_signed, show c ≠ 0xFC by omega, show c ≠ 0xFD by omega,
        show c ≠ 0xFE by omega, show c ≠ 0xFF by omega, h]
  · constructor <;>
      simp [read_nat0, read_signed, show c ≠ 0xFC by omega, show c ≠ 0xFD by omega,
        show c ≠ 0xFE by omega, show c ≠ 0xFF by omega, show ¬ c ≤ 0x7F by omega]
  · constructor <;> simp [read_nat0, read_signed, htake 1 bs s h]
  · constructor <;> simp [read_nat0, read_signed, htake 2 bs s h]
  · constructor <;> simp [read_nat0, read_signed, htake 4 bs s h]
  · constructor <;> simp [read_nat0, read_signed, htake 8 bs s h]

/-- Closed instances of C9: a small byte, a malformed tag, a 2-byte
zero-extension and a 1-byte sign-extension. -/
theorem int_decode_algorithm_witness :
    read_nat0 [0x2A] = .ok (0x2A, []) ∧
    read_signed [0x90] = .error .malformedIntegerTag ∧
    read_nat0 (0xFE :: ([0x2C, 0x01] ++ [])) = .ok (300, []) ∧
    read_signed (0xFF :: ([0xFF] ++ [9])) = .ok (-1, [9]) := by
  obtain ⟨h1, h2, h3, h4, h5, h6⟩ := int_decode_algorithm
  refine ⟨(h1 0x2A [] (by decide)).1, (h2 0x90 [] (by decide) (by decide)).2, ?_, ?_⟩
  · have h := (h4 [0x2C, 0x01] [] (by decide)).1
    rw [show leVal [0x2C, 0x01] = 300 from by decide] at h
    exact h
  · have h := (h3 [0xFF] [9] (by decide)).2
    rw [show toSigned 1 (leVal [0xFF]) = -1 from by decide] at h
    exact h

/-- C10: Owned/borrowed writer agreement — the String and &str impls
write identical byte sequences (nat0 byte length then the raw bytes),
and the Vec and slice impls write identical byte sequences (nat0 count
then each element's encoding in order). -/
theorem owned_borrowed_writers_agree :
    (∀ bs : List Nat, writeString bs = writeStr bs ∧
      writeString bs = write_nat0 bs.length ++ bs) ∧
    (∀ (α : Type) (wr : α → List Nat) (l : List α),
      writeVec wr l = writeSlice wr l ∧
      writeVec wr l = write_nat0 l.length ++ (l.map wr).flatten) :=
  ⟨fun _ => ⟨rfl, rfl⟩, fun _ _ _ => ⟨rfl, rfl⟩⟩

end BinProt
